import Mathlib

/-! cloud-storage: the SharePoint adapter (`sharepoint.go`)

A shallow embedding of `package filestore`, file `sharepoint.go`, and of the
`FileModel` of `model/file.go`.

* Go strings are byte sequences (`GoString`).
* Pointers are indices into typed stores of an explicit `Heap`.
* The session registry `sharepoinSession` is a finite map from fingerprints to
  session pointers, carried in an explicit `State`.
* Calls into libraries (`net/http`, `io/ioutil`, `gosip`) whose result depends
  on the outside world are fields of an environment `Env`; every such call is
  recorded in a trace of `Event`s.
* `log.Fatalf` ends the process: it is the outcome `Outcome.fatal`.
-/

namespace Filestore

/-! ## Bytes and Go strings -/

/-- One byte of a Go string. -/
abbrev Byte := Fin 256

/-- A Go `string`: an immutable sequence of bytes. -/
abbrev GoString := List Byte

/-- The bytes of a string literal of the source (all of them are ASCII). -/
def lit (s : String) : GoString :=
  s.toList.map (fun c => (⟨c.toNat % 256, Nat.mod_lt _ (by decide)⟩ : Byte))

/-- The byte of `' '`. -/
def chSpace : Byte := 32
/-- The byte of `'#'`. -/
def chHash : Byte := 35
/-- The byte of `'%'`. -/
def chPercent : Byte := 37
/-- The byte of `'&'`. -/
def chAmp : Byte := 38
/-- The byte of the single quote. -/
def chQuote : Byte := 39
/-- The byte of `'+'`. -/
def chPlus : Byte := 43
/-- The byte of `'-'`. -/
def chMinus : Byte := 45
/-- The byte of `'.'`. -/
def chDot : Byte := 46
/-- The byte of `'/'`. -/
def chSlash : Byte := 47
/-- The byte of `'?'`. -/
def chQuestion : Byte := 63
/-- The byte of `'_'`. -/
def chUnderscore : Byte := 95
/-- The byte of `'~'`. -/
def chTilde : Byte := 126

/-! ## `net/url`: escaping (Go standard library, called by `Upload` and `Download`)

`url.QueryEscape` is not code of this repository; its model follows
`net/url/url.go` (`shouldEscape`, `escape`, `unescape`, `ishex`, `unhex`),
restricted to the two encoding modes that matter here. -/

/-- The `encoding` modes of `net/url` used below: `encodePathSegment`
(`url.PathEscape`, `url.PathUnescape`) and `encodeQueryComponent`
(`url.QueryEscape`, `url.QueryUnescape`). -/
inductive encoding where
  | encodePathSegment
  | encodeQueryComponent
  deriving DecidableEq, Repr

/-- ASCII letter or digit: `'a' <= c <= 'z' || 'A' <= c <= 'Z' || '0' <= c <= '9'`. -/
def isAlnum (c : Byte) : Bool :=
  (97 ≤ c.val && c.val ≤ 122) || (65 ≤ c.val && c.val ≤ 90) || (48 ≤ c.val && c.val ≤ 57)

/-- The function `shouldEscape(c, mode)` of `net/url`. -/
def shouldEscape (c : Byte) (mode : encoding) : Bool :=
  if isAlnum c then false
  -- '-', '_', '.', '~': unreserved marks
  else if c.val = 45 ∨ c.val = 95 ∨ c.val = 46 ∨ c.val = 126 then false
  -- '$', '&', '+', ',', '/', ':', ';', '=', '?', '@': reserved
  else if c.val = 36 ∨ c.val = 38 ∨ c.val = 43 ∨ c.val = 44 ∨ c.val = 47 ∨ c.val = 58
      ∨ c.val = 59 ∨ c.val = 61 ∨ c.val = 63 ∨ c.val = 64 then
    match mode with
    | .encodePathSegment => c.val = 47 ∨ c.val = 59 ∨ c.val = 44 ∨ c.val = 63
    | .encodeQueryComponent => true
  else true

/-- The digit `"0123456789ABCDEF"[n]` of `net/url` (`upperhex`), for `n < 16`. -/
def upperhex (n : Nat) : Byte :=
  if n < 10 then ⟨(48 + n) % 256, Nat.mod_lt _ (by decide)⟩
  else ⟨(55 + n) % 256, Nat.mod_lt _ (by decide)⟩

/-- The function `ishex(c)` of `net/url`. -/
def ishex (c : Byte) : Bool :=
  (48 ≤ c.val && c.val ≤ 57) || (97 ≤ c.val && c.val ≤ 102) || (65 ≤ c.val && c.val ≤ 70)

/-- The function `unhex(c)` of `net/url`. -/
def unhex (c : Byte) : Nat :=
  if 48 ≤ c.val ∧ c.val ≤ 57 then c.val - 48
  else if 97 ≤ c.val ∧ c.val ≤ 102 then c.val - 97 + 10
  else if 65 ≤ c.val ∧ c.val ≤ 70 then c.val - 65 + 10
  else 0

/-- What the last loop of `escape` writes for one byte `c`. -/
def escapeByte (mode : encoding) (c : Byte) : GoString :=
  if c = chSpace ∧ mode = .encodeQueryComponent then [chPlus]
  else if shouldEscape c mode then [chPercent, upperhex (c.val / 16), upperhex (c.val % 16)]
  else [c]

/-- The last loop of `escape`: every byte replaced by what `escapeByte` writes. -/
def escapeLoop (mode : encoding) : GoString → GoString
  | [] => []
  | c :: rest => escapeByte mode c ++ escapeLoop mode rest

/-- The function `escape(s, mode)` of `net/url`: it counts the bytes to write as
`'+'` (`spaceCount`) and as `%XX` (`hexCount`), returns `s` itself when there
are none, only replaces spaces when `hexCount == 0`, and runs the general loop
otherwise. -/
def escape (s : GoString) (mode : encoding) : GoString :=
  let spaceCount :=
    s.countP (fun c => shouldEscape c mode && decide (c = chSpace ∧ mode = .encodeQueryComponent))
  let hexCount :=
    s.countP (fun c => shouldEscape c mode && !decide (c = chSpace ∧ mode = .encodeQueryComponent))
  if spaceCount = 0 ∧ hexCount = 0 then s
  else if hexCount = 0 then s.map (fun c => if c = chSpace then chPlus else c)
  else escapeLoop mode s

/-- The function `url.QueryEscape`. -/
def QueryEscape (s : GoString) : GoString := escape s .encodeQueryComponent

/-- Equality of `Except` values is decidable. -/
instance instDecidableEqExcept {ε α : Type} [DecidableEq ε] [DecidableEq α] :
    DecidableEq (Except ε α)
  | .ok a, .ok b => if h : a = b then isTrue (by rw [h]) else isFalse (fun h2 => h (by cases h2; rfl))
  | .error a, .error b =>
    if h : a = b then isTrue (by rw [h]) else isFalse (fun h2 => h (by cases h2; rfl))
  | .ok _, .error _ => isFalse (fun h => by cases h)
  | .error _, .ok _ => isFalse (fun h => by cases h)

/-- The function `unescape(s, mode)` of `net/url` for the two modes above: a `%`
must be followed by two hex digits (otherwise an `EscapeError` carrying at most
three bytes from the `%` on), `%XX` becomes the byte `XX`, and `'+'` becomes a
space in `encodeQueryComponent` mode only. -/
def unescape : GoString → encoding → Except GoString GoString
  | [], _ => .ok []
  | c :: rest, mode =>
    if c = chPercent then
      match rest with
      | h1 :: h2 :: rest2 =>
        if ishex h1 ∧ ishex h2 then
          match unescape rest2 mode with
          | .ok t => .ok (⟨(unhex h1 * 16 + unhex h2) % 256, Nat.mod_lt _ (by decide)⟩ :: t)
          | .error e => .error e
        else .error (c :: h1 :: [h2])
      | _ => .error (c :: rest)
    else
      match unescape rest mode with
      | .ok t =>
        .ok ((if c = chPlus ∧ mode = .encodeQueryComponent then chSpace else c) :: t)
      | .error e => .error e

/-- The function `url.PathUnescape`: `'+'` stays a plus. -/
def PathUnescape (s : GoString) : Except GoString GoString := unescape s .encodePathSegment

/-- The function `url.QueryUnescape`: `'+'` becomes a space. -/
def QueryUnescape (s : GoString) : Except GoString GoString := unescape s .encodeQueryComponent

/-! ## Data model -/

/-- A Go `error` value that is not nil; `msg` is what `err.Error()` returns. -/
structure GoError where
  msg : String
  deriving DecidableEq, Repr

/-- A pointer: the index of an object in its store of the `Heap`. -/
abbrev Ptr := Nat

/-- An `io.Reader` as `ioutil.ReadAll` sees it: the bytes it yields before it
stops, and the error it stops with (`none` for a clean end of stream). -/
structure Reader where
  data : List Byte
  err : Option GoError
  deriving DecidableEq, Repr

/-- The function `ioutil.ReadAll`: the bytes read and the error, nil at end of stream. -/
def ReadAll (r : Reader) : List Byte × Option GoError := (r.data, r.err)

/-- The type `model.FileModel` (`model/file.go`); `Content` is an interface value
and may be nil. -/
structure FileModel where
  ParentID : GoString
  SourcesID : GoString
  DestinationID : GoString
  Source : GoString
  Sources : List GoString
  Destination : GoString
  Destinations : List GoString
  Name : GoString
  MimeType : GoString
  Path : GoString
  Content : Option Reader
  Query : GoString
  deriving DecidableEq, Repr

/-- The type `strategy.AuthCnfg` of `gosip/auth/saml`: the fields `NewSharepoint` sets. -/
structure AuthCnfg where
  SiteURL : GoString
  Username : GoString
  Password : GoString
  deriving DecidableEq, Repr

/-- The type `gosip.SPClient`: the field `NewSharepoint` sets, a reference to the
auth configuration. -/
structure SPClient where
  AuthCnfg : Option Ptr
  deriving DecidableEq, Repr

/-- The type `api.SP` as `api.NewSP(client)` builds it: a handle on the client. -/
structure SP where
  client : Option Ptr
  deriving DecidableEq, Repr

set_option linter.dupNamespace false in
/-- The type `SharepointService`: three pointers, each possibly nil. -/
structure SharepointService where
  Auth : Option Ptr
  Client : Option Ptr
  SharepointService : Option Ptr
  deriving DecidableEq, Repr

/-- The objects allocated so far, one store per type; a pointer is an index. -/
structure Heap where
  auths : List AuthCnfg
  clients : List SPClient
  sps : List SP
  sessions : List SharepointService
  deriving DecidableEq, Repr

/-- Modelled from the spec: the SharePoint part of `model.Service`, whose declaration
is not among the sources ("Configuration input: site URL, username, password"). -/
structure SharepointConfig where
  SiteURL : GoString
  Username : GoString
  Password : GoString
  deriving DecidableEq, Repr

/-- Modelled from the spec: the field `Database` of `model.Service`, read by
`NewSharepoint` as `config.Database.Sharepoint`. -/
structure DatabaseConfig where
  Sharepoint : SharepointConfig
  deriving DecidableEq, Repr

/-- Modelled from the spec: the type `model.Service`, whose declaration is not among
the sources; `Other` stands for every connection parameter besides the
SharePoint ones. Its method `Hash` is a parameter of `NewSharepoint` below. -/
structure Service where
  Database : DatabaseConfig
  Other : GoString
  deriving DecidableEq, Repr

/-- The package-level state: the heap, the map `sharepoinSession` (a lookup of an
absent key yields nil, here `none`) and the lines written by `log.Println`. -/
structure State where
  heap : Heap
  sharepoinSession : GoString → Option Ptr
  log : List String

/-- The type `api.RequestConfig`: the field `Headers`, a `map[string]string`. -/
structure RequestConfig where
  Headers : List (String × String)
  deriving DecidableEq, Repr

/-- The package variable `headers`. -/
def headers : List (String × String) :=
  [("Accept", "application/json;odata=minimalmetadata"),
   ("Accept-Language", "de-DE,de;q=0.9")]

/-- The package variable `config = &api.RequestConfig{Headers: headers}`. -/
def config : RequestConfig := ⟨headers⟩

/-- The value of key `k` in a `map[string]string`, `none` when the key is absent. -/
def mapGet (m : List (String × String)) (k : String) : Option String :=
  (m.find? (fun kv => kv.1 = k)).map (fun kv => kv.2)

/-- The type `http.Header`: the keys that are set, each with its values. -/
abbrev Header := List (String × List String)

/-- The method `Header.Set(key, value)`: the key's values become the single `value`.
(The keys used by this package are already in canonical form.) -/
def Header.Set (h : Header) (key value : String) : Header :=
  (key, [value]) :: h.filter (fun kv => kv.1 ≠ key)

/-- The values of `key` in a header, `none` when the key is not set. -/
def Header.values (h : Header) (key : String) : Option (List String) :=
  (h.find? (fun kv => kv.1 = key)).map (fun kv => kv.2)

/-- The type `http.Request`: the fields this package sets. -/
structure Request where
  Method : String
  URL : GoString
  Body : Option (List Byte)
  Header : Header
  TransferEncoding : List String
  deriving DecidableEq, Repr

/-- The type `http.Response`: status code and body stream. -/
structure Response where
  StatusCode : Nat
  Body : Reader
  deriving DecidableEq, Repr

/-- The outside world, as the library calls of this package see it. -/
structure Env where
  /-- Whether `http.NewRequest(method, url, _)` fails (invalid method, unparsable URL). -/
  newRequestErr : String → GoString → Option GoError
  /-- The result of `client.Execute(req)` for the client at a pointer. -/
  execute : Ptr → Request → Except GoError Response
  /-- The error of `sp.Conf(conf).Web().GetFile(path).Recycle()` for the `api.SP`
  at a pointer. -/
  recycle : Ptr → RequestConfig → GoString → Option GoError

/-- The function `http.NewRequest`: on success a request with the given method, URL
and body, and no header set. -/
def NewRequest (env : Env) (method : String) (url : GoString) (body : Option (List Byte)) :
    Except GoError Request :=
  match env.newRequestErr method url with
  | some e => .error e
  | none => .ok ⟨method, url, body, [], []⟩

/-- A call that reaches outside the package. -/
inductive Event where
  | readContent
  | newRequest (method : String) (url : GoString) (body : Option (List Byte))
  | execute (client : Ptr) (req : Request)
  | readBody
  | closeBody
  | recycle (sp : Ptr) (conf : RequestConfig) (path : GoString)
  deriving DecidableEq, Repr

/-- A value of type `interface{}` returned by the adapter. -/
inductive Value where
  | nil
  | bytes (b : List Byte)
  | str (s : GoString)
  deriving DecidableEq, Repr

/-- How a call ends: it returns, `log.Fatalf` ends the process with a message, or
a nil pointer is dereferenced. -/
inductive Outcome (α : Type) where
  | returned (a : α)
  | fatal (msg : String)
  | panicked
  deriving DecidableEq, Repr

/-- The type `[]error`; the nil slice is the empty list. -/
abbrev ErrorList := List GoError

/-- A completed call: the outside calls it made, in order, and how it ended. -/
structure Run (α : Type) where
  trace : List Event
  outcome : Outcome α
  deriving DecidableEq, Repr

/-! ## `sharepoint.go` -/

/-- The function `NewSharepoint`. `Hash` is the method `config.Hash()` of
`model.Service`, which is not among the sources. The result is the pointer to
the session, together with the state afterwards. -/
def NewSharepoint (Hash : Service → GoString) (config : Service) (st : State) : Ptr × State :=
  let hash := Hash config
  match st.sharepoinSession hash with
  | some currentSession => (currentSession, st)
  | none =>
    -- currentSession = &SharepointService{nil, nil, nil}
    let currentSession := st.heap.sessions.length
    let sessions := st.heap.sessions ++ [⟨none, none, none⟩]
    let auth := st.heap.auths.length
    let auths := st.heap.auths ++ [⟨config.Database.Sharepoint.SiteURL,
      config.Database.Sharepoint.Username, config.Database.Sharepoint.Password⟩]
    let client := st.heap.clients.length
    let clients := st.heap.clients ++ [⟨some auth⟩]
    -- SharepointService := api.NewSP(client)
    let sp := st.heap.sps.length
    let sps := st.heap.sps ++ [⟨some client⟩]
    let sessions := sessions.set currentSession ⟨some auth, some client, some sp⟩
    (currentSession,
      { heap := ⟨auths, clients, sps, sessions⟩
        sharepoinSession := fun k => if k = hash then some currentSession else st.sharepoinSession k
        log := st.log ++ ["Connected to Sharepoint Server"] })

/-- The expression `sp.Client.AuthCnfg.GetSiteURL()`: `none` when a pointer on the
way is nil (the call panics). `GetSiteURL` of `gosip/auth/saml` returns the field
`SiteURL`. -/
def GetSiteURL (h : Heap) (sp : SharepointService) : Option GoString :=
  match sp.Client with
  | none => none
  | some client =>
    match h.clients[client]? with
    | none => none
    | some c =>
      match c.AuthCnfg with
      | none => none
      | some auth =>
        match h.auths[auth]? with
        | none => none
        | some a => some a.SiteURL

/-- The method `Search`. -/
def SharepointService.Search (_env : Env) (_h : Heap) (_dr : Filestore.SharepointService) (_fileModel : FileModel) :
    Run (Value × Option GoError) :=
  ⟨[], .returned (.nil, none)⟩

/-- The method `Metadata`. -/
def SharepointService.Metadata (_env : Env) (_h : Heap) (_dr : Filestore.SharepointService) (_fileModel : FileModel) :
    Run (Value × Option GoError) :=
  ⟨[], .returned (.nil, none)⟩

/-- The method `List`. -/
def SharepointService.List (env : Env) (h : Heap) (sp : Filestore.SharepointService) (_fileModel : FileModel) :
    Run (Value × Option GoError) :=
  match sp.Client, GetSiteURL h sp with
  | some client, some site =>
    let endpoint := site ++ lit "/_api/web/lists/getByTitle('Custom')/items"
    let body := lit "\x7b\"__metadata\":\x7b\"type\":\"SP.Data.CustomListItem\"\x7d,\"Title\":\"Test\"\x7d"
    let t1 := [Event.newRequest "POST" endpoint (some body)]
    match NewRequest env "POST" endpoint (some body) with
    | .error err => ⟨t1, .returned (.nil, some err)⟩
    | .ok req =>
      let req := { req with Header := req.Header.Set "Accept" "application/json;odata=verbose" }
      let req :=
        { req with Header := req.Header.Set "Content-Type" "application/json;odata=verbose" }
      let t2 := t1 ++ [Event.execute client req]
      match env.execute client req with
      | .error err => ⟨t2, .returned (.nil, some err)⟩
      | .ok resp =>
        match ReadAll resp.Body with
        | (_, some err) => ⟨t2 ++ [.readBody, .closeBody], .returned (.nil, some err)⟩
        | (data, none) => ⟨t2 ++ [.readBody, .closeBody], .returned (.bytes data, none)⟩
  | _, _ => ⟨[], .panicked⟩

/-- The method `Upload`. -/
def SharepointService.Upload (env : Env) (h : Heap) (sp : Filestore.SharepointService) (fileModel : FileModel) :
    Run (Value × Option GoError) :=
  match sp.Client, GetSiteURL h sp with
  | some client, some site =>
    let endpoint := site ++ lit "/_api/web/getFolderByServerRelativeUrl('"
      ++ QueryEscape fileModel.ParentID ++ lit "')/files/add(overwrite=true,url='"
      ++ QueryEscape fileModel.Name ++ lit "')"
    match fileModel.Content with
    | none => ⟨[], .panicked⟩
    | some content =>
      let t1 := [Event.readContent]
      match ReadAll content with
      | (_, some err) => ⟨t1, .fatal ("Unable to read " ++ err.msg)⟩
      | (byteContent, none) =>
        let t2 := t1 ++ [Event.newRequest "POST" endpoint (some byteContent)]
        match NewRequest env "POST" endpoint (some byteContent) with
        | .error err => ⟨t2, .fatal ("Unable to POST data " ++ err.msg)⟩
        | .ok req =>
          let req :=
            { req with Header := req.Header.Set "Accept" "application/json;odata=verbose" }
          let t3 := t2 ++ [Event.execute client req]
          match env.execute client req with
          | .error err => ⟨t3, .fatal ("Unable to execute " ++ err.msg)⟩
          | .ok resp =>
            match ReadAll resp.Body with
            | (_, some err) => ⟨t3 ++ [.readBody], .fatal ("Unable to read body " ++ err.msg)⟩
            | (result, none) => ⟨t3 ++ [.readBody, .closeBody], .returned (.str result, none)⟩
  | _, _ => ⟨[], .panicked⟩

/-- The method `Download`. -/
def SharepointService.Download (env : Env) (h : Heap) (sp : Filestore.SharepointService) (fileModel : FileModel) :
    Run (Value × Option GoError) :=
  match sp.Client, GetSiteURL h sp with
  | some client, some site =>
    let endpoint := site
      ++ lit "/_api/Web/GetFileByServerRelativeUrl(@FileServerRelativeUrl)/$value?@FileServerRelativeUrl='"
      ++ QueryEscape fileModel.SourcesID ++ lit "'"
    let t1 := [Event.newRequest "GET" endpoint none]
    match NewRequest env "GET" endpoint none with
    | .error err => ⟨t1, .returned (.nil, some err)⟩
    | .ok req =>
      let req := { req with TransferEncoding := ["null"] }
      let t2 := t1 ++ [Event.execute client req]
      match env.execute client req with
      | .error err => ⟨t2, .returned (.nil, some err)⟩
      | .ok resp =>
        match ReadAll resp.Body with
        | (_, some err) => ⟨t2 ++ [.readBody, .closeBody], .returned (.nil, some err)⟩
        | (data, none) => ⟨t2 ++ [.readBody, .closeBody], .returned (.bytes data, none)⟩
  | _, _ => ⟨[], .panicked⟩

/-- The method `Delete`: the library call with the package variable `config`. -/
def SharepointService.Delete (env : Env) (_h : Heap) (sp : Filestore.SharepointService) (fileModel : FileModel) :
    Run (Option GoError) :=
  match sp.SharepointService with
  | none => ⟨[], .panicked⟩
  | some p =>
    ⟨[.recycle p config fileModel.SourcesID], .returned (env.recycle p config fileModel.SourcesID)⟩

/-- The method `Move`; its second result is a nil slice of errors. -/
def SharepointService.Move (_env : Env) (_h : Heap) (_sp : Filestore.SharepointService) (_fileModel : FileModel) :
    Run (Value × ErrorList) :=
  ⟨[], .returned (.nil, [])⟩

/-- The method `CreateFolder`. -/
def SharepointService.CreateFolder (_env : Env) (_h : Heap) (_sp : Filestore.SharepointService) (_fileModel : FileModel) :
    Run (Value × Option GoError) :=
  ⟨[], .returned (.nil, none)⟩

/-! ## Observations on a completed call -/

/-- The arguments of the calls of `http.NewRequest` made during a call, in order. -/
def Run.requests {α : Type} (r : Run α) : List (String × GoString × Option (List Byte)) :=
  r.trace.filterMap (fun e =>
    match e with
    | .newRequest method url body => some (method, url, body)
    | _ => none)

/-- The requests handed to `Client.Execute` during a call, in order. -/
def Run.executed {α : Type} (r : Run α) : List Request :=
  r.trace.filterMap (fun e =>
    match e with
    | .execute _ req => some req
    | _ => none)

/-- The request configurations handed to the library by `Delete` during a call. -/
def Run.recycled {α : Type} (r : Run α) : List (RequestConfig × GoString) :=
  r.trace.filterMap (fun e =>
    match e with
    | .recycle _ conf path => some (conf, path)
    | _ => none)

/-- One completed call of `NewSharepoint` in a sequence of calls. -/
structure Call where
  before : State
  config : Service
  result : Ptr
  after : State

/-- The number of `SharepointService` objects a call allocated. -/
def Call.constructed (c : Call) : Nat :=
  c.after.heap.sessions.length - c.before.heap.sessions.length

/-- A finite sequence of calls of `NewSharepoint`, each starting in the state the
previous one left. -/
def calls (Hash : Service → GoString) : State → List Service → List Call
  | _, [] => []
  | st, c :: cs =>
    ⟨st, c, (NewSharepoint Hash c st).1, (NewSharepoint Hash c st).2⟩ ::
      calls Hash (NewSharepoint Hash c st).2 cs

/-- The state a finite sequence of calls of `NewSharepoint` ends in. -/
def stateAfter (Hash : Service → GoString) : State → List Service → State
  | st, [] => st
  | st, c :: cs => stateAfter Hash (NewSharepoint Hash c st).2 cs

/-- The bytes an escaped text may consist of: letters, digits and `- _ . ~ % +`. -/
def escapedAlphabet (b : Byte) : Bool :=
  isAlnum b || b = chMinus || b = chUnderscore || b = chDot || b = chTilde || b = chPercent
    || b = chPlus

/-! ## Sample inputs -/

/-- A state with nothing allocated and nothing registered. -/
def emptyState : State := ⟨⟨[], [], [], []⟩, fun _ => none, []⟩

/-- A fingerprint function: the three SharePoint fields and the rest, separated by
a zero byte. -/
def sampleHash (c : Service) : GoString :=
  c.Database.Sharepoint.SiteURL ++ [0] ++ c.Database.Sharepoint.Username ++ [0]
    ++ c.Database.Sharepoint.Password ++ [0] ++ c.Other

/-- A configuration for the site `https://a.example/sites/x`. -/
def sampleConfig : Service := ⟨⟨⟨lit "https://a.example/sites/x", lit "u", lit "p"⟩⟩, []⟩

/-- A configuration for the site `https://b.example`. -/
def otherConfig : Service := ⟨⟨⟨lit "https://b.example", lit "u", lit "p"⟩⟩, []⟩

/-- The state after the first `NewSharepoint sampleHash sampleConfig`. -/
def sampleState : State := (NewSharepoint sampleHash sampleConfig emptyState).2

/-- Three calls from the empty state: the sample configuration, another one, and the
sample configuration again. -/
def sampleCalls : List Call :=
  calls sampleHash emptyState [sampleConfig, otherConfig, sampleConfig]

/-- The first of the three sample calls. -/
def firstCall : Call := ⟨emptyState, sampleConfig, 0, sampleState⟩

/-- The third of the three sample calls. -/
def thirdCall : Call :=
  ⟨(NewSharepoint sampleHash otherConfig sampleState).2, sampleConfig, 0,
    (NewSharepoint sampleHash otherConfig sampleState).2⟩

/-- The heap after the first `NewSharepoint sampleHash sampleConfig`. -/
def sampleHeap : Heap := (NewSharepoint sampleHash sampleConfig emptyState).2.heap

/-- The session the first `NewSharepoint sampleHash sampleConfig` creates. -/
def sampleSession : SharepointService := ⟨some 0, some 0, some 0⟩

/-- An outside world in which every library call succeeds; every response is a
404 with body `nope`. -/
def sampleEnv : Env :=
  ⟨fun _ _ => none, fun _ _ => .ok ⟨404, ⟨lit "nope", none⟩⟩, fun _ _ _ => none⟩

/-- An outside world in which no request can be constructed. -/
def envNoRequest : Env :=
  ⟨fun _ _ => some ⟨"parse"⟩, fun _ _ => .ok ⟨200, ⟨[], none⟩⟩, fun _ _ _ => none⟩

/-- An outside world in which `Execute` and the recycle call fail. -/
def envNoExecute : Env :=
  ⟨fun _ _ => none, fun _ _ => .error ⟨"refused"⟩, fun _ _ _ => some ⟨"denied"⟩⟩

/-- An outside world in which every response body breaks off with an error. -/
def envBrokenBody : Env :=
  ⟨fun _ _ => none, fun _ _ => .ok ⟨200, ⟨lit "par", some ⟨"reset"⟩⟩⟩, fun _ _ _ => none⟩

/-- A file model: folder `/sites/x/Shared Documents`, name `it's 100% R&D.txt`,
content `hello`. -/
def sampleModel : FileModel :=
  { ParentID := lit "/sites/x/Shared Documents"
    SourcesID := lit "/sites/x/Shared Documents/it's 100% R&D.txt"
    DestinationID := []
    Source := []
    Sources := []
    Destination := []
    Destinations := []
    Name := lit "it's 100% R&D.txt"
    MimeType := lit "text/plain"
    Path := []
    Content := some ⟨lit "hello", none⟩
    Query := [] }

/-- A file model whose folder path and file name contain a space. -/
def spaceModel : FileModel :=
  { sampleModel with ParentID := lit "my docs", Name := lit "a b.txt" }

/-- The request `Upload` executes for the sample inputs. -/
def sampleUploadRequest : Request :=
  ⟨"POST", lit "https://a.example/sites/x/_api/web/getFolderByServerRelativeUrl('%2Fsites%2Fx%2FShared+Documents')/files/add(overwrite=true,url='it%27s+100%25+R%26D.txt')",
    some (lit "hello"), [("Accept", ["application/json;odata=verbose"])], []⟩

/-- The request `List` executes for the sample inputs. -/
def sampleListRequest : Request :=
  ⟨"POST", lit "https://a.example/sites/x/_api/web/lists/getByTitle('Custom')/items",
    some (lit "\x7b\"__metadata\":\x7b\"type\":\"SP.Data.CustomListItem\"\x7d,\"Title\":\"Test\"\x7d"),
    [("Content-Type", ["application/json;odata=verbose"]),
     ("Accept", ["application/json;odata=verbose"])], []⟩

/-- The request `Download` executes for the sample inputs. -/
def sampleDownloadRequest : Request :=
  ⟨"GET", lit "https://a.example/sites/x/_api/Web/GetFileByServerRelativeUrl(@FileServerRelativeUrl)/$value?@FileServerRelativeUrl='%2Fsites%2Fx%2FShared+Documents%2Fit%27s+100%25+R%26D.txt'",
    none, [], ["null"]⟩

/-- The sample file model with a content stream that breaks off with an error. -/
def brokenModel : FileModel := { sampleModel with Content := some ⟨lit "he", some ⟨"eof"⟩⟩ }


/-! ## Lemmas on `net/url` escaping -/

theorem shouldEscape_space (mode : encoding) : shouldEscape chSpace mode = true := by
  cases mode <;> decide

theorem upperhex_spec (n : Nat) (h : n < 16) :
    ishex (upperhex n) = true ∧ isAlnum (upperhex n) = true ∧ unhex (upperhex n) = n := by
  revert h n
  decide

theorem hex_digits (c : Byte) :
    ishex (upperhex (c.val / 16)) = true ∧ ishex (upperhex (c.val % 16)) = true ∧
      (unhex (upperhex (c.val / 16)) * 16 + unhex (upperhex (c.val % 16))) % 256 = c.val := by
  have h1 : c.val / 16 < 16 := by omega
  have h2 : c.val % 16 < 16 := by omega
  refine ⟨(upperhex_spec _ h1).1, (upperhex_spec _ h2).1, ?_⟩
  rw [(upperhex_spec _ h1).2.2, (upperhex_spec _ h2).2.2]
  omega

set_option maxRecDepth 100000 in
theorem unescaped_alphabet (c : Byte) (h : shouldEscape c .encodeQueryComponent = false) :
    escapedAlphabet c = true := by
  revert h c
  decide

theorem escapeByte_alphabet (c : Byte) :
    ∀ b ∈ escapeByte .encodeQueryComponent c, escapedAlphabet b = true := by
  intro b hb
  unfold escapeByte at hb
  split at hb
  · simp only [List.mem_singleton] at hb
    subst hb
    decide
  · split at hb
    · simp only [List.mem_cons, List.mem_singleton, List.not_mem_nil, or_false] at hb
      rcases hb with hb | hb | hb
      · subst hb
        decide
      · subst hb
        simp [escapedAlphabet, (upperhex_spec (c.val / 16) (by omega)).2.1]
      · subst hb
        simp [escapedAlphabet, (upperhex_spec (c.val % 16) (by omega)).2.1]
    · rename_i h2
      simp only [List.mem_singleton] at hb
      subst hb
      exact unescaped_alphabet b (by simpa using h2)

theorem escapeLoop_of_hexCount_zero (mode : encoding) (s : GoString)
    (h : s.countP (fun c => shouldEscape c mode
      && !decide (c = chSpace ∧ mode = .encodeQueryComponent)) = 0) :
    escapeLoop mode s = s.map (fun c => if c = chSpace then chPlus else c) := by
  induction s with
  | nil => rfl
  | cons c rest ih =>
    rw [List.countP_cons] at h
    have h1 : List.countP (fun c => shouldEscape c mode
        && !decide (c = chSpace ∧ mode = .encodeQueryComponent)) rest = 0 := by omega
    have h2 : ¬ ((shouldEscape c mode
        && !decide (c = chSpace ∧ mode = .encodeQueryComponent)) = true) := by
      intro hc
      rw [if_pos hc] at h
      omega
    simp only [escapeLoop, List.map_cons, ih h1]
    by_cases hs : c = chSpace ∧ mode = .encodeQueryComponent
    · simp [escapeByte, hs]
    · have h3 : shouldEscape c mode = false := by
        simpa [hs] using h2
      have h4 : c ≠ chSpace := by
        intro hc
        rw [hc, shouldEscape_space] at h3
        cases h3
      simp [escapeByte, hs, h3, h4]

/-- The three branches of `escape` agree with its general loop. -/
theorem escape_eq_escapeLoop (s : GoString) (mode : encoding) :
    escape s mode = escapeLoop mode s := by
  unfold escape
  simp only []
  split
  · rename_i h
    rw [escapeLoop_of_hexCount_zero mode s h.2]
    symm
    have hno : ∀ c ∈ s, c ≠ chSpace := by
      intro c hc hsp
      have h1 := (List.countP_eq_zero.mp h.1) c hc
      have h2 := (List.countP_eq_zero.mp h.2) c hc
      rw [hsp, shouldEscape_space] at h1 h2
      simp at h1 h2
      exact h1 h2
    calc s.map (fun c => if c = chSpace then chPlus else c)
        = s.map id := List.map_congr_left (fun c hc => by simp [hno c hc])
      _ = s := List.map_id s
  · split
    · rename_i h
      exact (escapeLoop_of_hexCount_zero mode s h).symm
    · rfl

theorem QueryEscape_eq (s : GoString) : QueryEscape s = escapeLoop .encodeQueryComponent s :=
  escape_eq_escapeLoop s _

/-- Every byte of an escaped text is a letter, a digit or one of `- _ . ~ % +`. -/
theorem QueryEscape_alphabet (s : GoString) : ∀ b ∈ QueryEscape s, escapedAlphabet b = true := by
  rw [QueryEscape_eq]
  induction s with
  | nil => simp [escapeLoop]
  | cons c rest ih =>
    intro b hb
    simp only [escapeLoop, List.mem_append] at hb
    rcases hb with hb | hb
    · exact escapeByte_alphabet c b hb
    · exact ih b hb

/-- A byte outside the alphabet of escaped texts does not occur in an escaped text. -/
theorem QueryEscape_count_zero (s : GoString) (b : Byte) (hb : escapedAlphabet b = false) :
    (QueryEscape s).count b = 0 := by
  rw [List.count_eq_zero]
  intro hmem
  rw [QueryEscape_alphabet s b hmem] at hb
  cases hb

set_option maxRecDepth 100000 in
theorem unescaped_not_special (c : Byte) (h : shouldEscape c .encodeQueryComponent = false) :
    c ≠ chPercent ∧ c ≠ chPlus ∧ c ≠ chSpace := by
  revert h c
  decide

theorem unescape_cons_of_ne (c : Byte) (t : GoString) (m : encoding) (h : c ≠ chPercent) :
    unescape (c :: t) m =
      match unescape t m with
      | .ok u => .ok ((if c = chPlus ∧ m = .encodeQueryComponent then chSpace else c) :: u)
      | .error e => .error e := by
  rcases t with _ | ⟨a, _ | ⟨b, t3⟩⟩ <;> simp [unescape, h]

theorem unescape_percent (h1 h2 : Byte) (t : GoString) (m : encoding)
    (hh1 : ishex h1 = true) (hh2 : ishex h2 = true) :
    unescape (chPercent :: h1 :: h2 :: t) m =
      match unescape t m with
      | .ok u => .ok (⟨(unhex h1 * 16 + unhex h2) % 256, Nat.mod_lt _ (by decide)⟩ :: u)
      | .error e => .error e := by
  rw [unescape]
  simp only [if_true, hh1, hh2, and_self]

/-- Decoding what `escape` wrote for one byte, in either mode. -/
theorem unescape_escapeByte (m : encoding) (c : Byte) (t : GoString) :
    unescape (escapeByte .encodeQueryComponent c ++ t) m =
      match unescape t m with
      | .ok u => .ok ((if c = chSpace ∧ m = .encodePathSegment then chPlus else c) :: u)
      | .error e => .error e := by
  unfold escapeByte
  by_cases hsp : c = chSpace
  · subst hsp
    have hpp : chPlus ≠ chPercent := by decide
    have hps : chPlus ≠ chSpace := by decide
    simp only [and_self, if_true, List.singleton_append, unescape_cons_of_ne _ _ _ hpp, true_and]
    cases m <;> simp
  · simp only [hsp, false_and, if_false]
    cases hse : shouldEscape c .encodeQueryComponent
    · have hn := unescaped_not_special c hse
      simp [unescape_cons_of_ne _ _ _ hn.1, hn.2.1]
    · have hh := hex_digits c
      have hv : (⟨(unhex (upperhex (c.val / 16)) * 16 + unhex (upperhex (c.val % 16))) % 256,
          Nat.mod_lt _ (by decide)⟩ : Byte) = c := Fin.ext hh.2.2
      simp only [if_true, List.cons_append, List.nil_append,
        unescape_percent _ _ _ _ hh.1 hh.2.1, hv]

/-- Decoding an escaped text: every byte comes back, except that in path mode a
space comes back as a plus. -/
theorem unescape_QueryEscape (m : encoding) (s : GoString) :
    unescape (QueryEscape s) m =
      .ok (s.map (fun c => if c = chSpace ∧ m = .encodePathSegment then chPlus else c)) := by
  rw [QueryEscape_eq]
  induction s with
  | nil => simp [escapeLoop, unescape]
  | cons c rest ih =>
    simp only [escapeLoop, unescape_escapeByte, ih, List.map_cons]

/-- Decoded as a query component, an escaped text is the original text. -/
theorem QueryUnescape_QueryEscape (s : GoString) : QueryUnescape (QueryEscape s) = .ok s := by
  unfold QueryUnescape
  rw [unescape_QueryEscape]
  simp

/-- Decoded as a path segment, an escaped text is the original text with every
space replaced by a plus. -/
theorem PathUnescape_QueryEscape (s : GoString) :
    PathUnescape (QueryEscape s) = .ok (s.map (fun c => if c = chSpace then chPlus else c)) := by
  unfold PathUnescape
  rw [unescape_QueryEscape]
  simp

/-! ## The shape of the requests -/

theorem GetSiteURL_client (h : Heap) (sp : SharepointService) (S : GoString)
    (hS : GetSiteURL h sp = some S) : ∃ client, sp.Client = some client := by
  unfold GetSiteURL at hS
  cases hc : sp.Client with
  | none => simp [hc] at hS
  | some client => exact ⟨client, rfl⟩

/-! ### `Upload`, case by case -/

theorem Upload_no_site (env : Env) (h : Heap) (sp : SharepointService) (m : FileModel)
    (hS : GetSiteURL h sp = none) :
    SharepointService.Upload env h sp m = ⟨[], .panicked⟩ := by
  unfold SharepointService.Upload
  cases hc : sp.Client <;> simp [hS]

theorem Upload_no_content (env : Env) (h : Heap) (sp : SharepointService) (m : FileModel)
    (hC : m.Content = none) :
    SharepointService.Upload env h sp m = ⟨[], .panicked⟩ := by
  unfold SharepointService.Upload
  cases hc : sp.Client <;> cases hS : GetSiteURL h sp <;> simp [hC]

theorem Upload_content_error (env : Env) (h : Heap) (sp : SharepointService) (m : FileModel)
    (client : Ptr) (S : GoString) (r : Reader) (e : GoError)
    (hc : sp.Client = some client) (hS : GetSiteURL h sp = some S)
    (hC : m.Content = some r) (hr : r.err = some e) :
    SharepointService.Upload env h sp m
      = ⟨[.readContent], .fatal ("Unable to read " ++ e.msg)⟩ := by
  simp [SharepointService.Upload, hc, hS, hC, ReadAll, hr]

theorem Upload_newRequest_error (env : Env) (h : Heap) (sp : SharepointService)
    (m : FileModel) (client : Ptr) (S url : GoString) (r : Reader) (e : GoError)
    (hc : sp.Client = some client) (hS : GetSiteURL h sp = some S)
    (hC : m.Content = some r) (hr : r.err = none)
    (hu : url = S ++ lit "/_api/web/getFolderByServerRelativeUrl('"
      ++ QueryEscape m.ParentID ++ lit "')/files/add(overwrite=true,url='"
      ++ QueryEscape m.Name ++ lit "')")
    (hn : env.newRequestErr "POST" url = some e) :
    SharepointService.Upload env h sp m
      = ⟨[.readContent, .newRequest "POST" url (some r.data)],
          .fatal ("Unable to POST data " ++ e.msg)⟩ := by
  subst hu
  simp only [List.append_assoc] at hn
  simp [SharepointService.Upload, hc, hS, hC, ReadAll, hr, NewRequest, hn]

theorem Upload_execute_error (env : Env) (h : Heap) (sp : SharepointService)
    (m : FileModel) (client : Ptr) (S url : GoString) (r : Reader) (e : GoError)
    (hc : sp.Client = some client) (hS : GetSiteURL h sp = some S)
    (hC : m.Content = some r) (hr : r.err = none)
    (hu : url = S ++ lit "/_api/web/getFolderByServerRelativeUrl('"
      ++ QueryEscape m.ParentID ++ lit "')/files/add(overwrite=true,url='"
      ++ QueryEscape m.Name ++ lit "')")
    (hn : env.newRequestErr "POST" url = none)
    (he : env.execute client ⟨"POST", url, some r.data,
      [("Accept", ["application/json;odata=verbose"])], []⟩ = .error e) :
    SharepointService.Upload env h sp m
      = ⟨[.readContent, .newRequest "POST" url (some r.data),
          .execute client ⟨"POST", url, some r.data,
            [("Accept", ["application/json;odata=verbose"])], []⟩],
          .fatal ("Unable to execute " ++ e.msg)⟩ := by
  subst hu
  simp only [List.append_assoc] at hn he
  simp [SharepointService.Upload, hc, hS, hC, ReadAll, hr, NewRequest, hn, he, Header.Set]

theorem Upload_body_error (env : Env) (h : Heap) (sp : SharepointService)
    (m : FileModel) (client : Ptr) (S url : GoString) (r : Reader) (resp : Response)
    (e : GoError)
    (hc : sp.Client = some client) (hS : GetSiteURL h sp = some S)
    (hC : m.Content = some r) (hr : r.err = none)
    (hu : url = S ++ lit "/_api/web/getFolderByServerRelativeUrl('"
      ++ QueryEscape m.ParentID ++ lit "')/files/add(overwrite=true,url='"
      ++ QueryEscape m.Name ++ lit "')")
    (hn : env.newRequestErr "POST" url = none)
    (he : env.execute client ⟨"POST", url, some r.data,
      [("Accept", ["application/json;odata=verbose"])], []⟩ = .ok resp)
    (hb : resp.Body.err = some e) :
    SharepointService.Upload env h sp m
      = ⟨[.readContent, .newRequest "POST" url (some r.data),
          .execute client ⟨"POST", url, some r.data,
            [("Accept", ["application/json;odata=verbose"])], []⟩, .readBody],
          .fatal ("Unable to read body " ++ e.msg)⟩ := by
  subst hu
  simp only [List.append_assoc] at hn he
  simp [SharepointService.Upload, hc, hS, hC, ReadAll, hr, NewRequest, hn, he, Header.Set, hb]

theorem Upload_ok (env : Env) (h : Heap) (sp : SharepointService)
    (m : FileModel) (client : Ptr) (S url : GoString) (r : Reader) (resp : Response)
    (hc : sp.Client = some client) (hS : GetSiteURL h sp = some S)
    (hC : m.Content = some r) (hr : r.err = none)
    (hu : url = S ++ lit "/_api/web/getFolderByServerRelativeUrl('"
      ++ QueryEscape m.ParentID ++ lit "')/files/add(overwrite=true,url='"
      ++ QueryEscape m.Name ++ lit "')")
    (hn : env.newRequestErr "POST" url = none)
    (he : env.execute client ⟨"POST", url, some r.data,
      [("Accept", ["application/json;odata=verbose"])], []⟩ = .ok resp)
    (hb : resp.Body.err = none) :
    SharepointService.Upload env h sp m
      = ⟨[.readContent, .newRequest "POST" url (some r.data),
          .execute client ⟨"POST", url, some r.data,
            [("Accept", ["application/json;odata=verbose"])], []⟩, .readBody, .closeBody],
          .returned (.str resp.Body.data, none)⟩ := by
  subst hu
  simp only [List.append_assoc] at hn he
  simp [SharepointService.Upload, hc, hS, hC, ReadAll, hr, NewRequest, hn, he, Header.Set, hb]

/-! ### `List`, case by case -/

theorem List_no_site (env : Env) (h : Heap) (sp : SharepointService) (m : FileModel)
    (hS : GetSiteURL h sp = none) :
    SharepointService.List env h sp m = ⟨[], .panicked⟩ := by
  unfold SharepointService.List
  cases hc : sp.Client <;> simp [hS]

theorem List_newRequest_error (env : Env) (h : Heap) (sp : SharepointService)
    (m : FileModel) (client : Ptr) (S url : GoString) (body : List Byte) (e : GoError)
    (hc : sp.Client = some client) (hS : GetSiteURL h sp = some S)
    (hu : url = S ++ lit "/_api/web/lists/getByTitle('Custom')/items")
    (hbody : body = lit "\x7b\"__metadata\":\x7b\"type\":\"SP.Data.CustomListItem\"\x7d,\"Title\":\"Test\"\x7d")
    (hn : env.newRequestErr "POST" url = some e) :
    SharepointService.List env h sp m
      = ⟨[.newRequest "POST" url (some body)], .returned (.nil, some e)⟩ := by
  subst hu hbody
  simp [SharepointService.List, hc, hS, NewRequest, hn]

theorem List_execute_error (env : Env) (h : Heap) (sp : SharepointService)
    (m : FileModel) (client : Ptr) (S url : GoString) (body : List Byte) (e : GoError)
    (hc : sp.Client = some client) (hS : GetSiteURL h sp = some S)
    (hu : url = S ++ lit "/_api/web/lists/getByTitle('Custom')/items")
    (hbody : body = lit "\x7b\"__metadata\":\x7b\"type\":\"SP.Data.CustomListItem\"\x7d,\"Title\":\"Test\"\x7d")
    (hn : env.newRequestErr "POST" url = none)
    (he : env.execute client ⟨"POST", url, some body,
      [("Content-Type", ["application/json;odata=verbose"]),
       ("Accept", ["application/json;odata=verbose"])], []⟩ = .error e) :
    SharepointService.List env h sp m
      = ⟨[.newRequest "POST" url (some body), .execute client ⟨"POST", url, some body,
      [("Content-Type", ["application/json;odata=verbose"]),
       ("Accept", ["application/json;odata=verbose"])], []⟩],
          .returned (.nil, some e)⟩ := by
  subst hu hbody
  simp [SharepointService.List, hc, hS, NewRequest, hn, he, Header.Set]

theorem List_body_error (env : Env) (h : Heap) (sp : SharepointService)
    (m : FileModel) (client : Ptr) (S url : GoString) (body : List Byte) (resp : Response)
    (e : GoError)
    (hc : sp.Client = some client) (hS : GetSiteURL h sp = some S)
    (hu : url = S ++ lit "/_api/web/lists/getByTitle('Custom')/items")
    (hbody : body = lit "\x7b\"__metadata\":\x7b\"type\":\"SP.Data.CustomListItem\"\x7d,\"Title\":\"Test\"\x7d")
    (hn : env.newRequestErr "POST" url = none)
    (he : env.execute client ⟨"POST", url, some body,
      [("Content-Type", ["application/json;odata=verbose"]),
       ("Accept", ["application/json;odata=verbose"])], []⟩ = .ok resp)
    (hb : resp.Body.err = some e) :
    SharepointService.List env h sp m
      = ⟨[.newRequest "POST" url (some body), .execute client ⟨"POST", url, some body,
      [("Content-Type", ["application/json;odata=verbose"]),
       ("Accept", ["application/json;odata=verbose"])], []⟩, .readBody, .closeBody],
          .returned (.nil, some e)⟩ := by
  subst hu hbody
  simp [SharepointService.List, hc, hS, NewRequest, hn, he, Header.Set, ReadAll, hb]

theorem List_ok (env : Env) (h : Heap) (sp : SharepointService)
    (m : FileModel) (client : Ptr) (S url : GoString) (body : List Byte) (resp : Response)
    (hc : sp.Client = some client) (hS : GetSiteURL h sp = some S)
    (hu : url = S ++ lit "/_api/web/lists/getByTitle('Custom')/items")
    (hbody : body = lit "\x7b\"__metadata\":\x7b\"type\":\"SP.Data.CustomListItem\"\x7d,\"Title\":\"Test\"\x7d")
    (hn : env.newRequestErr "POST" url = none)
    (he : env.execute client ⟨"POST", url, some body,
      [("Content-Type", ["application/json;odata=verbose"]),
       ("Accept", ["application/json;odata=verbose"])], []⟩ = .ok resp)
    (hb : resp.Body.err = none) :
    SharepointService.List env h sp m
      = ⟨[.newRequest "POST" url (some body), .execute client ⟨"POST", url, some body,
      [("Content-Type", ["application/json;odata=verbose"]),
       ("Accept", ["application/json;odata=verbose"])], []⟩, .readBody, .closeBody],
          .returned (.bytes resp.Body.data, none)⟩ := by
  subst hu hbody
  simp [SharepointService.List, hc, hS, NewRequest, hn, he, Header.Set, ReadAll, hb]

/-! ### `Download`, case by case -/

theorem Download_no_site (env : Env) (h : Heap) (sp : SharepointService) (m : FileModel)
    (hS : GetSiteURL h sp = none) :
    SharepointService.Download env h sp m = ⟨[], .panicked⟩ := by
  unfold SharepointService.Download
  cases hc : sp.Client <;> simp [hS]

theorem Download_newRequest_error (env : Env) (h : Heap) (sp : SharepointService)
    (m : FileModel) (client : Ptr) (S url : GoString) (e : GoError)
    (hc : sp.Client = some client) (hS : GetSiteURL h sp = some S)
    (hu : url = S
      ++ lit "/_api/Web/GetFileByServerRelativeUrl(@FileServerRelativeUrl)/$value?@FileServerRelativeUrl='"
      ++ QueryEscape m.SourcesID ++ lit "'")
    (hn : env.newRequestErr "GET" url = some e) :
    SharepointService.Download env h sp m
      = ⟨[.newRequest "GET" url none], .returned (.nil, some e)⟩ := by
  subst hu
  simp only [List.append_assoc] at hn
  simp [SharepointService.Download, hc, hS, NewRequest, hn]

theorem Download_execute_error (env : Env) (h : Heap) (sp : SharepointService)
    (m : FileModel) (client : Ptr) (S url : GoString) (e : GoError)
    (hc : sp.Client = some client) (hS : GetSiteURL h sp = some S)
    (hu : url = S
      ++ lit "/_api/Web/GetFileByServerRelativeUrl(@FileServerRelativeUrl)/$value?@FileServerRelativeUrl='"
      ++ QueryEscape m.SourcesID ++ lit "'")
    (hn : env.newRequestErr "GET" url = none)
    (he : env.execute client ⟨"GET", url, none, [], ["null"]⟩ = .error e) :
    SharepointService.Download env h sp m
      = ⟨[.newRequest "GET" url none, .execute client ⟨"GET", url, none, [], ["null"]⟩], .returned (.nil, some e)⟩ := by
  subst hu
  simp only [List.append_assoc] at hn he
  simp [SharepointService.Download, hc, hS, NewRequest, hn, he]

theorem Download_body_error (env : Env) (h : Heap) (sp : SharepointService)
    (m : FileModel) (client : Ptr) (S url : GoString) (resp : Response) (e : GoError)
    (hc : sp.Client = some client) (hS : GetSiteURL h sp = some S)
    (hu : url = S
      ++ lit "/_api/Web/GetFileByServerRelativeUrl(@FileServerRelativeUrl)/$value?@FileServerRelativeUrl='"
      ++ QueryEscape m.SourcesID ++ lit "'")
    (hn : env.newRequestErr "GET" url = none)
    (he : env.execute client ⟨"GET", url, none, [], ["null"]⟩ = .ok resp)
    (hb : resp.Body.err = some e) :
    SharepointService.Download env h sp m
      = ⟨[.newRequest "GET" url none, .execute client ⟨"GET", url, none, [], ["null"]⟩, .readBody, .closeBody],
          .returned (.nil, some e)⟩ := by
  subst hu
  simp only [List.append_assoc] at hn he
  simp [SharepointService.Download, hc, hS, NewRequest, hn, he, ReadAll, hb]

theorem Download_ok (env : Env) (h : Heap) (sp : SharepointService)
    (m : FileModel) (client : Ptr) (S url : GoString) (resp : Response)
    (hc : sp.Client = some client) (hS : GetSiteURL h sp = some S)
    (hu : url = S
      ++ lit "/_api/Web/GetFileByServerRelativeUrl(@FileServerRelativeUrl)/$value?@FileServerRelativeUrl='"
      ++ QueryEscape m.SourcesID ++ lit "'")
    (hn : env.newRequestErr "GET" url = none)
    (he : env.execute client ⟨"GET", url, none, [], ["null"]⟩ = .ok resp)
    (hb : resp.Body.err = none) :
    SharepointService.Download env h sp m
      = ⟨[.newRequest "GET" url none, .execute client ⟨"GET", url, none, [], ["null"]⟩, .readBody, .closeBody],
          .returned (.bytes resp.Body.data, none)⟩ := by
  subst hu
  simp only [List.append_assoc] at hn he
  simp [SharepointService.Download, hc, hS, NewRequest, hn, he, ReadAll, hb]

/-! ### What each operation builds and executes -/

/-- `Upload` builds no request, or exactly the one `POST`; it executes nothing, or
exactly that request with the single header `Accept`. -/
theorem Upload_shape (env : Env) (h : Heap) (sp : SharepointService) (m : FileModel) :
    ((SharepointService.Upload env h sp m).requests = [] ∧
        (SharepointService.Upload env h sp m).executed = []) ∨
    ∃ S r, GetSiteURL h sp = some S ∧ m.Content = some r ∧ r.err = none ∧
      (SharepointService.Upload env h sp m).requests =
        [("POST", S ++ lit "/_api/web/getFolderByServerRelativeUrl('"
          ++ QueryEscape m.ParentID ++ lit "')/files/add(overwrite=true,url='"
          ++ QueryEscape m.Name ++ lit "')", some r.data)] ∧
      ((SharepointService.Upload env h sp m).executed = [] ∨
        (SharepointService.Upload env h sp m).executed =
          [⟨"POST", S ++ lit "/_api/web/getFolderByServerRelativeUrl('"
            ++ QueryEscape m.ParentID ++ lit "')/files/add(overwrite=true,url='"
            ++ QueryEscape m.Name ++ lit "')", some r.data,
            [("Accept", ["application/json;odata=verbose"])], []⟩]) := by
  cases hS : GetSiteURL h sp with
  | none =>
    left
    rw [Upload_no_site _ _ _ _ hS]
    exact ⟨rfl, rfl⟩
  | some S =>
    obtain ⟨client, hc⟩ := GetSiteURL_client h sp S hS
    cases hC : m.Content with
    | none =>
      left
      rw [Upload_no_content _ _ _ _ hC]
      exact ⟨rfl, rfl⟩
    | some r =>
      cases hr : r.err with
      | some e =>
        left
        rw [Upload_content_error env h sp m client S r e hc hS hC hr]
        exact ⟨rfl, rfl⟩
      | none =>
        right
        refine ⟨S, r, rfl, rfl, hr, ?_⟩
        obtain ⟨url, hu⟩ : ∃ url, url = S ++ lit "/_api/web/getFolderByServerRelativeUrl('"
          ++ QueryEscape m.ParentID ++ lit "')/files/add(overwrite=true,url='"
          ++ QueryEscape m.Name ++ lit "')" := ⟨_, rfl⟩
        rw [← hu]
        cases hn : env.newRequestErr "POST" url with
        | some e =>
          rw [Upload_newRequest_error env h sp m client S url r e hc hS hC hr hu hn]
          exact ⟨rfl, Or.inl rfl⟩
        | none =>
          cases he : env.execute client ⟨"POST", url, some r.data,
              [("Accept", ["application/json;odata=verbose"])], []⟩ with
          | error e =>
            rw [Upload_execute_error env h sp m client S url r e hc hS hC hr hu hn he]
            exact ⟨rfl, Or.inr rfl⟩
          | ok resp =>
            cases hb : resp.Body.err with
            | some e =>
              rw [Upload_body_error env h sp m client S url r resp e hc hS hC hr hu hn he hb]
              exact ⟨rfl, Or.inr rfl⟩
            | none =>
              rw [Upload_ok env h sp m client S url r resp hc hS hC hr hu hn he hb]
              exact ⟨rfl, Or.inr rfl⟩

/-- `List` builds no request, or exactly the one `POST`; it executes nothing, or
exactly that request with the headers `Accept` and `Content-Type`. -/
theorem List_shape (env : Env) (h : Heap) (sp : SharepointService) (m : FileModel) :
    ((SharepointService.List env h sp m).requests = [] ∧
        (SharepointService.List env h sp m).executed = []) ∨
    ∃ S, GetSiteURL h sp = some S ∧
      (SharepointService.List env h sp m).requests =
        [("POST", S ++ lit "/_api/web/lists/getByTitle('Custom')/items",
          some (lit "\x7b\"__metadata\":\x7b\"type\":\"SP.Data.CustomListItem\"\x7d,\"Title\":\"Test\"\x7d"))] ∧
      ((SharepointService.List env h sp m).executed = [] ∨
        (SharepointService.List env h sp m).executed =
          [⟨"POST", S ++ lit "/_api/web/lists/getByTitle('Custom')/items",
            some (lit "\x7b\"__metadata\":\x7b\"type\":\"SP.Data.CustomListItem\"\x7d,\"Title\":\"Test\"\x7d"),
            [("Content-Type", ["application/json;odata=verbose"]),
             ("Accept", ["application/json;odata=verbose"])], []⟩]) := by
  cases hS : GetSiteURL h sp with
  | none =>
    left
    rw [List_no_site _ _ _ _ hS]
    exact ⟨rfl, rfl⟩
  | some S =>
    obtain ⟨client, hc⟩ := GetSiteURL_client h sp S hS
    right
    refine ⟨S, rfl, ?_⟩
    obtain ⟨url, hu⟩ : ∃ url, url = S ++ lit "/_api/web/lists/getByTitle('Custom')/items" :=
      ⟨_, rfl⟩
    obtain ⟨body, hbody⟩ : ∃ body, body
      = lit "\x7b\"__metadata\":\x7b\"type\":\"SP.Data.CustomListItem\"\x7d,\"Title\":\"Test\"\x7d" := ⟨_, rfl⟩
    rw [← hu, ← hbody]
    cases hn : env.newRequestErr "POST" url with
    | some e =>
      rw [List_newRequest_error env h sp m client S url body e hc hS hu hbody hn]
      exact ⟨rfl, Or.inl rfl⟩
    | none =>
      cases he : env.execute client ⟨"POST", url, some body,
          [("Content-Type", ["application/json;odata=verbose"]),
           ("Accept", ["application/json;odata=verbose"])], []⟩ with
      | error e =>
        rw [List_execute_error env h sp m client S url body e hc hS hu hbody hn he]
        exact ⟨rfl, Or.inr rfl⟩
      | ok resp =>
        cases hb : resp.Body.err with
        | some e =>
          rw [List_body_error env h sp m client S url body resp e hc hS hu hbody hn he hb]
          exact ⟨rfl, Or.inr rfl⟩
        | none =>
          rw [List_ok env h sp m client S url body resp hc hS hu hbody hn he hb]
          exact ⟨rfl, Or.inr rfl⟩

/-- `Download` builds no request, or exactly the one `GET`; it executes nothing, or
exactly that request, with no header set. -/
theorem Download_shape (env : Env) (h : Heap) (sp : SharepointService) (m : FileModel) :
    ((SharepointService.Download env h sp m).requests = [] ∧
        (SharepointService.Download env h sp m).executed = []) ∨
    ∃ S, GetSiteURL h sp = some S ∧
      (SharepointService.Download env h sp m).requests =
        [("GET", S
          ++ lit "/_api/Web/GetFileByServerRelativeUrl(@FileServerRelativeUrl)/$value?@FileServerRelativeUrl='"
          ++ QueryEscape m.SourcesID ++ lit "'", none)] ∧
      ((SharepointService.Download env h sp m).executed = [] ∨
        (SharepointService.Download env h sp m).executed =
          [⟨"GET", S
            ++ lit "/_api/Web/GetFileByServerRelativeUrl(@FileServerRelativeUrl)/$value?@FileServerRelativeUrl='"
            ++ QueryEscape m.SourcesID ++ lit "'", none, [], ["null"]⟩]) := by
  cases hS : GetSiteURL h sp with
  | none =>
    left
    rw [Download_no_site _ _ _ _ hS]
    exact ⟨rfl, rfl⟩
  | some S =>
    obtain ⟨client, hc⟩ := GetSiteURL_client h sp S hS
    right
    refine ⟨S, rfl, ?_⟩
    obtain ⟨url, hu⟩ : ∃ url, url = S
      ++ lit "/_api/Web/GetFileByServerRelativeUrl(@FileServerRelativeUrl)/$value?@FileServerRelativeUrl='"
      ++ QueryEscape m.SourcesID ++ lit "'" := ⟨_, rfl⟩
    rw [← hu]
    cases hn : env.newRequestErr "GET" url with
    | some e =>
      rw [Download_newRequest_error env h sp m client S url e hc hS hu hn]
      exact ⟨rfl, Or.inl rfl⟩
    | none =>
      cases he : env.execute client ⟨"GET", url, none, [], ["null"]⟩ with
      | error e =>
        rw [Download_execute_error env h sp m client S url e hc hS hu hn he]
        exact ⟨rfl, Or.inr rfl⟩
      | ok resp =>
        cases hb : resp.Body.err with
        | some e =>
          rw [Download_body_error env h sp m client S url resp e hc hS hu hn he hb]
          exact ⟨rfl, Or.inr rfl⟩
        | none =>
          rw [Download_ok env h sp m client S url resp hc hS hu hn he hb]
          exact ⟨rfl, Or.inr rfl⟩

/-! ## Lemmas on the session registry -/

theorem NewSharepoint_hit (Hash : Service → GoString) (c : Service) (st : State) (p : Ptr)
    (hp : st.sharepoinSession (Hash c) = some p) : NewSharepoint Hash c st = (p, st) := by
  simp [NewSharepoint, hp]

theorem NewSharepoint_miss (Hash : Service → GoString) (c : Service) (st : State)
    (hp : st.sharepoinSession (Hash c) = none) :
    NewSharepoint Hash c st = (st.heap.sessions.length,
      { heap := ⟨st.heap.auths ++ [⟨c.Database.Sharepoint.SiteURL,
            c.Database.Sharepoint.Username, c.Database.Sharepoint.Password⟩],
          st.heap.clients ++ [⟨some st.heap.auths.length⟩],
          st.heap.sps ++ [⟨some st.heap.clients.length⟩],
          st.heap.sessions ++ [⟨some st.heap.auths.length, some st.heap.clients.length,
            some st.heap.sps.length⟩]⟩
        sharepoinSession := fun k =>
          if k = Hash c then some st.heap.sessions.length else st.sharepoinSession k
        log := st.log ++ ["Connected to Sharepoint Server"] }) := by
  simp [NewSharepoint, hp]

/-- A registered fingerprint stays registered, with the same session. -/
theorem NewSharepoint_keeps (Hash : Service → GoString) (c : Service) (st : State)
    (k : GoString) (p : Ptr) (hk : st.sharepoinSession k = some p) :
    (NewSharepoint Hash c st).2.sharepoinSession k = some p := by
  cases hc : st.sharepoinSession (Hash c) with
  | some q => rw [NewSharepoint_hit Hash c st q hc]; exact hk
  | none =>
    rw [NewSharepoint_miss Hash c st hc]
    have hne : k ≠ Hash c := by
      intro h
      rw [h, hc] at hk
      cases hk
    simp [hne, hk]

/-- After a call the fingerprint of its configuration is registered with the
session it returned. -/
theorem NewSharepoint_registers (Hash : Service → GoString) (c : Service) (st : State) :
    (NewSharepoint Hash c st).2.sharepoinSession (Hash c) = some (NewSharepoint Hash c st).1 := by
  cases hc : st.sharepoinSession (Hash c) with
  | some q => rw [NewSharepoint_hit Hash c st q hc]; exact hc
  | none =>
    rw [NewSharepoint_miss Hash c st hc]
    simp

/-- A call allocates at most one session. -/
theorem NewSharepoint_allocates_le_one (Hash : Service → GoString) (c : Service) (st : State) :
    (NewSharepoint Hash c st).2.heap.sessions.length - st.heap.sessions.length ≤ 1 := by
  cases hc : st.sharepoinSession (Hash c) with
  | some q => rw [NewSharepoint_hit Hash c st q hc]; simp
  | none =>
    rw [NewSharepoint_miss Hash c st hc]
    simp

/-- Every call for a fingerprint registered beforehand returns the registered
session and allocates nothing. -/
theorem calls_registered (Hash : Service → GoString) (cs : List Service) :
    ∀ (st : State) (k : GoString) (p : Ptr), st.sharepoinSession k = some p →
      ∀ a ∈ calls Hash st cs, Hash a.config = k → a.result = p ∧ a.constructed = 0 := by
  induction cs with
  | nil =>
    intro st k p _ a ha
    simp [calls] at ha
  | cons c cs ih =>
    intro st k p hk a ha hak
    simp only [calls, List.mem_cons] at ha
    rcases ha with ha | ha
    · subst ha
      simp only at hak
      subst hak
      rw [NewSharepoint_hit Hash c st p hk]
      simp [Call.constructed]
    · exact ih _ k p (NewSharepoint_keeps Hash c st k p hk) a ha hak

/-- A later call with the fingerprint of an earlier one returns the same session
and allocates nothing. -/
theorem calls_later (Hash : Service → GoString) (cs : List Service) :
    ∀ (st : State) (i j : Nat) (a b : Call), i < j →
      (calls Hash st cs)[i]? = some a → (calls Hash st cs)[j]? = some b →
      Hash a.config = Hash b.config → a.result = b.result ∧ b.constructed = 0 := by
  induction cs with
  | nil =>
    intro st i j a b _ hi
    simp [calls] at hi
  | cons c cs ih =>
    intro st i j a b hij hi hj hab
    cases j with
    | zero => omega
    | succ j =>
      simp only [calls, List.getElem?_cons_succ] at hj
      cases i with
      | zero =>
        simp only [calls, List.getElem?_cons_zero, Option.some.injEq] at hi
        subst hi
        simp only at hab
        have hb := calls_registered Hash cs _ (Hash c) _ (NewSharepoint_registers Hash c st) b
          (List.getElem?_mem hj) hab.symm
        exact ⟨hb.1.symm, hb.2⟩
      | succ i =>
        simp only [calls, List.getElem?_cons_succ] at hi
        exact ih _ i j a b (by omega) hi hj hab

theorem sum_map_eq_zero {α : Type} (f : α → Nat) (l : List α) (h : ∀ a ∈ l, f a = 0) :
    (l.map f).sum = 0 := by
  induction l with
  | nil => rfl
  | cons x xs ih =>
    simp only [List.map_cons, List.sum_cons]
    rw [h x (List.mem_cons_self x xs), ih (fun a ha => h a (List.mem_cons_of_mem x ha))]

/-- Over a whole sequence of calls at most one session is allocated per
fingerprint. -/
theorem calls_constructed_le_one (Hash : Service → GoString) (cs : List Service) :
    ∀ (st : State) (fp : GoString),
      (((calls Hash st cs).filter (fun a => decide (Hash a.config = fp))).map
        Call.constructed).sum ≤ 1 := by
  induction cs with
  | nil =>
    intro st fp
    simp [calls]
  | cons c cs ih =>
    intro st fp
    simp only [calls]
    by_cases hfp : Hash c = fp
    · rw [List.filter_cons_of_pos (by simpa using hfp)]
      simp only [List.map_cons, List.sum_cons]
      have hrest : (((calls Hash (NewSharepoint Hash c st).2 cs).filter
          (fun a => decide (Hash a.config = fp))).map Call.constructed).sum = 0 := by
        apply sum_map_eq_zero
        intro a ha
        rw [List.mem_filter] at ha
        exact (calls_registered Hash cs _ (Hash c) _ (NewSharepoint_registers Hash c st) a
          ha.1 (by rw [hfp]; simpa using ha.2)).2
      rw [hrest]
      have := NewSharepoint_allocates_le_one Hash c st
      simp only [Call.constructed, Nat.add_zero]
      exact this
    · rw [List.filter_cons_of_neg (by simpa using hfp)]
      exact ih _ fp

theorem calls_config (Hash : Service → GoString) (cs : List Service) :
    ∀ st : State, (calls Hash st cs).map (fun a => a.config) = cs := by
  induction cs with
  | nil => intro st; rfl
  | cons c cs ih =>
    intro st
    simp only [calls, List.map_cons, ih]

/-! ### Sessions stay where they are -/

theorem getElem?_append_of_some {α : Type} (l t : List α) (p : Nat) (x : α)
    (h : l[p]? = some x) : (l ++ t)[p]? = some x := by
  have hlt : p < l.length := by
    by_contra hge
    rw [List.getElem?_eq_none (by omega)] at h
    cases h
  rw [List.getElem?_append_left hlt]
  exact h

/-- A call of `NewSharepoint` leaves every allocated object as it is. -/
theorem NewSharepoint_heap_keeps (Hash : Service → GoString) (c : Service) (st : State) :
    (∀ (p : Ptr) (x : SharepointService), st.heap.sessions[p]? = some x →
      (NewSharepoint Hash c st).2.heap.sessions[p]? = some x) ∧
    (∀ (p : Ptr) (x : SPClient), st.heap.clients[p]? = some x →
      (NewSharepoint Hash c st).2.heap.clients[p]? = some x) ∧
    (∀ (p : Ptr) (x : AuthCnfg), st.heap.auths[p]? = some x →
      (NewSharepoint Hash c st).2.heap.auths[p]? = some x) := by
  cases hc : st.sharepoinSession (Hash c) with
  | some q =>
    rw [NewSharepoint_hit Hash c st q hc]
    exact ⟨fun _ _ h => h, fun _ _ h => h, fun _ _ h => h⟩
  | none =>
    rw [NewSharepoint_miss Hash c st hc]
    exact ⟨fun p x h => getElem?_append_of_some _ _ p x h,
      fun p x h => getElem?_append_of_some _ _ p x h,
      fun p x h => getElem?_append_of_some _ _ p x h⟩

/-- A site URL read through a session is read again in any heap that keeps the
clients and auth configurations. -/
theorem GetSiteURL_keeps (h1 h2 : Heap) (sp : SharepointService) (S : GoString)
    (hcl : ∀ (p : Ptr) (x : SPClient), h1.clients[p]? = some x → h2.clients[p]? = some x)
    (hau : ∀ (p : Ptr) (x : AuthCnfg), h1.auths[p]? = some x → h2.auths[p]? = some x)
    (hS : GetSiteURL h1 sp = some S) : GetSiteURL h2 sp = some S := by
  unfold GetSiteURL at hS ⊢
  cases hc : sp.Client with
  | none => simp [hc] at hS
  | some client =>
    simp only [hc] at hS ⊢
    cases h1c : h1.clients[client]? with
    | none => simp [h1c] at hS
    | some cl =>
      simp only [h1c] at hS
      simp only [hcl client cl h1c]
      cases ha : cl.AuthCnfg with
      | none => simp [ha] at hS
      | some auth =>
        simp only [ha] at hS ⊢
        cases h1a : h1.auths[auth]? with
        | none => simp [h1a] at hS
        | some a =>
          simp only [h1a] at hS
          simp only [hau auth a h1a]
          exact hS

/-- A sequence of calls keeps every registration and every allocated object. -/
theorem stateAfter_keeps (Hash : Service → GoString) (cs : List Service) :
    ∀ st : State,
      (∀ (k : GoString) (p : Ptr), st.sharepoinSession k = some p →
        (stateAfter Hash st cs).sharepoinSession k = some p) ∧
      (∀ (p : Ptr) (x : SharepointService), st.heap.sessions[p]? = some x →
        (stateAfter Hash st cs).heap.sessions[p]? = some x) ∧
      (∀ (p : Ptr) (x : SPClient), st.heap.clients[p]? = some x →
        (stateAfter Hash st cs).heap.clients[p]? = some x) ∧
      (∀ (p : Ptr) (x : AuthCnfg), st.heap.auths[p]? = some x →
        (stateAfter Hash st cs).heap.auths[p]? = some x) := by
  induction cs with
  | nil =>
    intro st
    exact ⟨fun _ _ h => h, fun _ _ h => h, fun _ _ h => h, fun _ _ h => h⟩
  | cons c cs ih =>
    intro st
    have hk := NewSharepoint_heap_keeps Hash c st
    have hi := ih (NewSharepoint Hash c st).2
    simp only [stateAfter]
    exact ⟨fun k p h => hi.1 k p (NewSharepoint_keeps Hash c st k p h),
      fun p x h => hi.2.1 p x (hk.1 p x h),
      fun p x h => hi.2.2.1 p x (hk.2.1 p x h),
      fun p x h => hi.2.2.2 p x (hk.2.2 p x h)⟩

/-- Every call of a sequence is a call of `NewSharepoint` from its own state, and
the sequence ends in the state a sequence from that call's end state ends in. -/
theorem calls_step (Hash : Service → GoString) (cs : List Service) :
    ∀ st : State, ∀ a ∈ calls Hash st cs,
      (a.result, a.after) = NewSharepoint Hash a.config a.before ∧
      ∃ rest : List Service, stateAfter Hash st cs = stateAfter Hash a.after rest := by
  induction cs with
  | nil =>
    intro st a ha
    simp [calls] at ha
  | cons c cs ih =>
    intro st a ha
    simp only [calls, List.mem_cons] at ha
    rcases ha with ha | ha
    · subst ha
      exact ⟨rfl, cs, rfl⟩
    · obtain ⟨h1, rest, h2⟩ := ih _ a ha
      exact ⟨h1, rest, by simp only [stateAfter]; exact h2⟩

/-- A key other than the fingerprint of the call keeps its entry. -/
theorem NewSharepoint_other (Hash : Service → GoString) (c : Service) (st : State)
    (k : GoString) (hk : k ≠ Hash c) :
    (NewSharepoint Hash c st).2.sharepoinSession k = st.sharepoinSession k := by
  cases hc : st.sharepoinSession (Hash c) with
  | some q => rw [NewSharepoint_hit Hash c st q hc]
  | none =>
    rw [NewSharepoint_miss Hash c st hc]
    simp [hk]

/-- A fingerprint that is not registered at the start and occurs in the sequence
gets exactly one session allocated. -/
theorem calls_constructed_eq_one (Hash : Service → GoString) (cs : List Service) :
    ∀ (st : State) (fp : GoString), st.sharepoinSession fp = none → fp ∈ cs.map Hash →
      (((calls Hash st cs).filter (fun a => decide (Hash a.config = fp))).map
        Call.constructed).sum = 1 := by
  induction cs with
  | nil =>
    intro st fp _ hmem
    simp at hmem
  | cons c cs ih =>
    intro st fp hnone hmem
    simp only [calls]
    by_cases hfp : Hash c = fp
    · rw [List.filter_cons_of_pos (by simpa using hfp)]
      simp only [List.map_cons, List.sum_cons]
      have hrest : (((calls Hash (NewSharepoint Hash c st).2 cs).filter
          (fun a => decide (Hash a.config = fp))).map Call.constructed).sum = 0 := by
        apply sum_map_eq_zero
        intro a ha
        rw [List.mem_filter] at ha
        exact (calls_registered Hash cs _ (Hash c) _ (NewSharepoint_registers Hash c st) a
          ha.1 (by rw [hfp]; simpa using ha.2)).2
      rw [hrest]
      have hc : st.sharepoinSession (Hash c) = none := by rw [hfp]; exact hnone
      simp only [Call.constructed, Nat.add_zero]
      rw [NewSharepoint_miss Hash c st hc]
      simp
    · rw [List.filter_cons_of_neg (by simpa using hfp)]
      have hmem2 : fp ∈ cs.map Hash := by
        simp only [List.map_cons, List.mem_cons] at hmem
        rcases hmem with h | h
        · exact absurd h.symm hfp
        · exact h
      have hnone2 : (NewSharepoint Hash c st).2.sharepoinSession fp = none := by
        rw [NewSharepoint_other Hash c st fp (fun h => hfp h.symm)]
        exact hnone
      exact ih _ fp hnone2 hmem2

/-- When every registered pointer designates an allocated session, this stays so
after a call. -/
theorem NewSharepoint_valid (Hash : Service → GoString) (c : Service) (st : State)
    (hv : ∀ (k : GoString) (p : Ptr), st.sharepoinSession k = some p →
      p < st.heap.sessions.length) :
    ∀ (k : GoString) (p : Ptr), (NewSharepoint Hash c st).2.sharepoinSession k = some p →
      p < (NewSharepoint Hash c st).2.heap.sessions.length := by
  cases hc : st.sharepoinSession (Hash c) with
  | some q =>
    rw [NewSharepoint_hit Hash c st q hc]
    exact hv
  | none =>
    rw [NewSharepoint_miss Hash c st hc]
    intro k p hkp
    dsimp only at hkp ⊢
    rw [List.length_append, List.length_singleton]
    by_cases hk : k = Hash c
    · rw [if_pos hk] at hkp
      cases hkp
      exact Nat.lt_succ_self _
    · rw [if_neg hk] at hkp
      exact Nat.lt_succ_of_lt (hv k p hkp)

/-- When every registered pointer designates an allocated session at the start,
every call returns a pointer to a session allocated when it returns. -/
theorem calls_valid (Hash : Service → GoString) (cs : List Service) :
    ∀ st : State,
      (∀ (k : GoString) (p : Ptr), st.sharepoinSession k = some p →
        p < st.heap.sessions.length) →
      ∀ a ∈ calls Hash st cs, a.result < a.after.heap.sessions.length := by
  induction cs with
  | nil =>
    intro st _ a ha
    simp [calls] at ha
  | cons c cs ih =>
    intro st hv a ha
    simp only [calls, List.mem_cons] at ha
    have hv2 := NewSharepoint_valid Hash c st hv
    rcases ha with ha | ha
    · subst ha
      exact hv2 (Hash c) _ (NewSharepoint_registers Hash c st)
    · exact ih _ hv2 a ha

/-! ## The claims -/

/-- C9: for every session and every `FileModel`, `Search`, `Metadata` and
`CreateFolder` return a nil result with a nil error and `Move` returns a nil
result with a nil error list; none of them makes a call outside the package
(the trace is empty: no content read, no request built or executed), ends the
process or panics, and the result does not depend on the `FileModel`. -/
theorem stubs_return_nothing (env : Env) (h : Heap) (sp : SharepointService) (m : FileModel) :
    SharepointService.Search env h sp m = ⟨[], .returned (.nil, none)⟩ ∧
    SharepointService.Metadata env h sp m = ⟨[], .returned (.nil, none)⟩ ∧
    SharepointService.CreateFolder env h sp m = ⟨[], .returned (.nil, none)⟩ ∧
    SharepointService.Move env h sp m = ⟨[], .returned (.nil, [])⟩ :=
  ⟨rfl, rfl, rfl, rfl⟩

set_option maxRecDepth 100000 in
/-- C3 (defect of the code): for the folder `my docs` and the file name `a b.txt`
the text `Upload` embeds in the URL path is `my+docs` and `a+b.txt`; decoded as a
URL path, where a plus is a literal plus, these give `my+docs` and `a+b.txt`,
not the original folder and name. -/
theorem Upload_embeds_space_as_plus :
    (SharepointService.Upload sampleEnv sampleHeap sampleSession spaceModel).requests.map
        (fun q => q.2.1)
      = [lit "https://a.example/sites/x/_api/web/getFolderByServerRelativeUrl('my+docs')/files/add(overwrite=true,url='a+b.txt')"] ∧
    PathUnescape (QueryEscape spaceModel.ParentID) = .ok (lit "my+docs") ∧
    PathUnescape (QueryEscape spaceModel.Name) = .ok (lit "a+b.txt") ∧
    PathUnescape (QueryEscape spaceModel.ParentID) ≠ .ok spaceModel.ParentID ∧
    PathUnescape (QueryEscape spaceModel.Name) ≠ .ok spaceModel.Name := by
  decide

set_option maxRecDepth 100000 in
/-- C7, refuted as stated: for the sample session and file, the request `Upload`
executes and the request `List` executes carry the same `Accept` value,
`application/json;odata=verbose`. -/
theorem Upload_Accept_equals_List_Accept :
    (SharepointService.Upload sampleEnv sampleHeap sampleSession sampleModel).executed.map
        (fun q => q.Header.values "Accept")
      = [some ["application/json;odata=verbose"]] ∧
    (SharepointService.List sampleEnv sampleHeap sampleSession sampleModel).executed.map
        (fun q => q.Header.values "Accept")
      = [some ["application/json;odata=verbose"]] := by
  decide

/-- C7, amended: for every session and `FileModel`, every request `List` executes and
every request `Upload` executes carry the same `Accept` value,
`application/json;odata=verbose`; every request `Download` executes has no
`Accept` header set by the adapter; the other variant,
`application/json;odata=minimalmetadata`, is the `Accept` value of the
configuration `Delete` hands to the library. -/
theorem Accept_per_operation (env : Env) (h : Heap) (sp : SharepointService) (m : FileModel) :
    (∀ q ∈ (SharepointService.List env h sp m).executed,
      q.Header.values "Accept" = some ["application/json;odata=verbose"]) ∧
    (∀ q ∈ (SharepointService.Upload env h sp m).executed,
      q.Header.values "Accept" = some ["application/json;odata=verbose"]) ∧
    (∀ q ∈ (SharepointService.Download env h sp m).executed,
      q.Header.values "Accept" = none) ∧
    (∀ q ∈ (SharepointService.Delete env h sp m).recycled,
      mapGet q.1.Headers "Accept" = some "application/json;odata=minimalmetadata") := by
  refine ⟨?_, ?_, ?_, ?_⟩
  · intro q hq
    rcases List_shape env h sp m with ⟨-, h0⟩ | ⟨S, -, -, h0 | h1⟩
    · rw [h0] at hq; cases hq
    · rw [h0] at hq; cases hq
    · rw [h1, List.mem_singleton] at hq
      subst hq
      rfl
  · intro q hq
    rcases Upload_shape env h sp m with ⟨-, h0⟩ | ⟨S, r, -, -, -, -, h0 | h1⟩
    · rw [h0] at hq; cases hq
    · rw [h0] at hq; cases hq
    · rw [h1, List.mem_singleton] at hq
      subst hq
      rfl
  · intro q hq
    rcases Download_shape env h sp m with ⟨-, h0⟩ | ⟨S, -, -, h0 | h1⟩
    · rw [h0] at hq; cases hq
    · rw [h0] at hq; cases hq
    · rw [h1, List.mem_singleton] at hq
      subst hq
      rfl
  · intro q hq
    unfold SharepointService.Delete at hq
    cases hp : sp.SharepointService with
    | none => simp [hp, Run.recycled] at hq
    | some p =>
      simp only [hp, Run.recycled, List.filterMap_cons, List.filterMap_nil,
        List.mem_singleton] at hq
      subst hq
      rfl

set_option maxRecDepth 100000 in
/-- C7, amended, at the sample session and file: each operation executes its
request, and the `Accept` values are as stated. -/
theorem Accept_per_operation_witness :
    (sampleListRequest ∈
        (SharepointService.List sampleEnv sampleHeap sampleSession sampleModel).executed ∧
      sampleListRequest.Header.values "Accept" = some ["application/json;odata=verbose"]) ∧
    (sampleUploadRequest ∈
        (SharepointService.Upload sampleEnv sampleHeap sampleSession sampleModel).executed ∧
      sampleUploadRequest.Header.values "Accept" = some ["application/json;odata=verbose"]) ∧
    (sampleDownloadRequest ∈
        (SharepointService.Download sampleEnv sampleHeap sampleSession sampleModel).executed ∧
      sampleDownloadRequest.Header.values "Accept" = none) ∧
    ((config, sampleModel.SourcesID) ∈
        (SharepointService.Delete sampleEnv sampleHeap sampleSession sampleModel).recycled ∧
      mapGet config.Headers "Accept" = some "application/json;odata=minimalmetadata") :=
  ⟨⟨by decide, (Accept_per_operation sampleEnv sampleHeap sampleSession sampleModel).1
      sampleListRequest (by decide)⟩,
   ⟨by decide, (Accept_per_operation sampleEnv sampleHeap sampleSession sampleModel).2.1
      sampleUploadRequest (by decide)⟩,
   ⟨by decide, (Accept_per_operation sampleEnv sampleHeap sampleSession sampleModel).2.2.1
      sampleDownloadRequest (by decide)⟩,
   ⟨by decide, (Accept_per_operation sampleEnv sampleHeap sampleSession sampleModel).2.2.2
      (config, sampleModel.SourcesID) (by decide)⟩⟩

set_option maxRecDepth 100000 in
/-- C8, refuted as stated: for the sample session and file, the request `Upload`
executes carries no `Content-Type` header; its only header is `Accept`. -/
theorem Upload_sets_no_Content_Type :
    (SharepointService.Upload sampleEnv sampleHeap sampleSession sampleModel).executed.map
        (fun q => q.Header.values "Content-Type") = [none] ∧
    (SharepointService.Upload sampleEnv sampleHeap sampleSession sampleModel).executed.map
        (fun q => q.Header) = [[("Accept", ["application/json;odata=verbose"])]] := by
  decide

/-- C8, amended: for every session and `FileModel`, every request `List` executes
carries `Accept` and `Content-Type`, both `application/json;odata=verbose`;
every request `Upload` executes carries `Accept` =
`application/json;odata=verbose` and no `Content-Type`; the configuration
`Delete` hands to the library carries `Accept` =
`application/json;odata=minimalmetadata` and `Accept-Language` =
`de-DE,de;q=0.9`. -/
theorem headers_per_operation (env : Env) (h : Heap) (sp : SharepointService) (m : FileModel) :
    (∀ q ∈ (SharepointService.List env h sp m).executed,
      q.Header.values "Accept" = some ["application/json;odata=verbose"] ∧
      q.Header.values "Content-Type" = some ["application/json;odata=verbose"]) ∧
    (∀ q ∈ (SharepointService.Upload env h sp m).executed,
      q.Header.values "Accept" = some ["application/json;odata=verbose"] ∧
      q.Header.values "Content-Type" = none) ∧
    (∀ q ∈ (SharepointService.Delete env h sp m).recycled,
      mapGet q.1.Headers "Accept" = some "application/json;odata=minimalmetadata" ∧
      mapGet q.1.Headers "Accept-Language" = some "de-DE,de;q=0.9") := by
  refine ⟨?_, ?_, ?_⟩
  · intro q hq
    rcases List_shape env h sp m with ⟨-, h0⟩ | ⟨S, -, -, h0 | h1⟩
    · rw [h0] at hq; cases hq
    · rw [h0] at hq; cases hq
    · rw [h1, List.mem_singleton] at hq
      subst hq
      exact ⟨rfl, rfl⟩
  · intro q hq
    rcases Upload_shape env h sp m with ⟨-, h0⟩ | ⟨S, r, -, -, -, -, h0 | h1⟩
    · rw [h0] at hq; cases hq
    · rw [h0] at hq; cases hq
    · rw [h1, List.mem_singleton] at hq
      subst hq
      exact ⟨rfl, rfl⟩
  · intro q hq
    unfold SharepointService.Delete at hq
    cases hp : sp.SharepointService with
    | none => simp [hp, Run.recycled] at hq
    | some p =>
      simp only [hp, Run.recycled, List.filterMap_cons, List.filterMap_nil,
        List.mem_singleton] at hq
      subst hq
      exact ⟨rfl, rfl⟩

set_option maxRecDepth 100000 in
/-- C8, amended, at the sample session and file: each operation makes its call,
and the headers are as stated. -/
theorem headers_per_operation_witness :
    (sampleListRequest ∈
        (SharepointService.List sampleEnv sampleHeap sampleSession sampleModel).executed ∧
      sampleListRequest.Header.values "Accept" = some ["application/json;odata=verbose"] ∧
      sampleListRequest.Header.values "Content-Type"
        = some ["application/json;odata=verbose"]) ∧
    (sampleUploadRequest ∈
        (SharepointService.Upload sampleEnv sampleHeap sampleSession sampleModel).executed ∧
      sampleUploadRequest.Header.values "Accept" = some ["application/json;odata=verbose"] ∧
      sampleUploadRequest.Header.values "Content-Type" = none) ∧
    ((config, sampleModel.SourcesID) ∈
        (SharepointService.Delete sampleEnv sampleHeap sampleSession sampleModel).recycled ∧
      mapGet config.Headers "Accept" = some "application/json;odata=minimalmetadata" ∧
      mapGet config.Headers "Accept-Language" = some "de-DE,de;q=0.9") :=
  ⟨⟨by decide, (headers_per_operation sampleEnv sampleHeap sampleSession sampleModel).1
      sampleListRequest (by decide)⟩,
   ⟨by decide, (headers_per_operation sampleEnv sampleHeap sampleSession sampleModel).2.1
      sampleUploadRequest (by decide)⟩,
   ⟨by decide, (headers_per_operation sampleEnv sampleHeap sampleSession sampleModel).2.2
      (config, sampleModel.SourcesID) (by decide)⟩⟩

set_option maxRecDepth 100000 in
theorem template_counts :
    (lit "/_api/web/getFolderByServerRelativeUrl('").count chQuote = 1 ∧
    (lit "')/files/add(overwrite=true,url='").count chQuote = 2 ∧
    (lit "')").count chQuote = 1 ∧
    (lit "/_api/web/getFolderByServerRelativeUrl('").count chSlash = 3 ∧
    (lit "')/files/add(overwrite=true,url='").count chSlash = 2 ∧
    (lit "')").count chSlash = 0 ∧
    (∀ b ∈ [chQuestion, chHash, chAmp],
      (lit "/_api/web/getFolderByServerRelativeUrl('").count b = 0 ∧
      (lit "')/files/add(overwrite=true,url='").count b = 0 ∧
      (lit "')").count b = 0) ∧
    (lit "/_api/Web/GetFileByServerRelativeUrl(@FileServerRelativeUrl)/$value?@FileServerRelativeUrl='").count chQuote = 1 ∧
    (lit "'").count chQuote = 1 ∧
    (lit "/_api/Web/GetFileByServerRelativeUrl(@FileServerRelativeUrl)/$value?@FileServerRelativeUrl='").count chSlash = 4 ∧
    (lit "/_api/Web/GetFileByServerRelativeUrl(@FileServerRelativeUrl)/$value?@FileServerRelativeUrl='").count chQuestion = 1 ∧
    (∀ b ∈ [chHash, chAmp],
      (lit "/_api/Web/GetFileByServerRelativeUrl(@FileServerRelativeUrl)/$value?@FileServerRelativeUrl='").count b = 0) ∧
    (∀ b ∈ [chSlash, chQuestion, chHash, chAmp], (lit "'").count b = 0) := by
  decide

/-- C10: for every `ParentID`, `Name` and `SourcesID`, every byte of the escaped text
that `Upload` and `Download` insert into the URL is a letter, a digit or one of
`- _ . ~ % +`, hence no single quote and none of `/ ? # &`; and for a site URL
without a single quote, every URL `Upload` builds is the template with the
escaped texts inserted and has exactly four single quotes, every URL `Download`
builds has exactly two, and the numbers of `/`, `?`, `#` and `&` are those of
the site URL plus those of the template: the inserted text closes no quoted
literal and adds no path segment, query or fragment. -/
theorem escaped_text_stays_inside_quotes (env : Env) (h : Heap) (sp : SharepointService)
    (m : FileModel) (S : GoString) (hS : GetSiteURL h sp = some S) (hq : chQuote ∉ S) :
    (∀ t ∈ [QueryEscape m.ParentID, QueryEscape m.Name, QueryEscape m.SourcesID], ∀ b ∈ t,
      escapedAlphabet b = true ∧ b ≠ chQuote ∧ b ≠ chSlash ∧ b ≠ chQuestion ∧ b ≠ chHash
        ∧ b ≠ chAmp) ∧
    (∀ q ∈ (SharepointService.Upload env h sp m).requests,
      q.2.1 = S ++ lit "/_api/web/getFolderByServerRelativeUrl('"
          ++ QueryEscape m.ParentID ++ lit "')/files/add(overwrite=true,url='"
          ++ QueryEscape m.Name ++ lit "')" ∧
      q.2.1.count chQuote = 4 ∧
      q.2.1.count chSlash = S.count chSlash + 5 ∧
      q.2.1.count chQuestion = S.count chQuestion ∧
      q.2.1.count chHash = S.count chHash ∧
      q.2.1.count chAmp = S.count chAmp) ∧
    (∀ q ∈ (SharepointService.Download env h sp m).requests,
      q.2.1 = S
          ++ lit "/_api/Web/GetFileByServerRelativeUrl(@FileServerRelativeUrl)/$value?@FileServerRelativeUrl='"
          ++ QueryEscape m.SourcesID ++ lit "'" ∧
      q.2.1.count chQuote = 2 ∧
      q.2.1.count chSlash = S.count chSlash + 4 ∧
      q.2.1.count chQuestion = S.count chQuestion + 1 ∧
      q.2.1.count chHash = S.count chHash ∧
      q.2.1.count chAmp = S.count chAmp) := by
  have hS0 : S.count chQuote = 0 := List.count_eq_zero.mpr hq
  have e1 : ∀ s, (QueryEscape s).count chQuote = 0 :=
    fun s => QueryEscape_count_zero s _ (by decide)
  have e2 : ∀ s, (QueryEscape s).count chSlash = 0 :=
    fun s => QueryEscape_count_zero s _ (by decide)
  have e3 : ∀ s, (QueryEscape s).count chQuestion = 0 :=
    fun s => QueryEscape_count_zero s _ (by decide)
  have e4 : ∀ s, (QueryEscape s).count chHash = 0 :=
    fun s => QueryEscape_count_zero s _ (by decide)
  have e5 : ∀ s, (QueryEscape s).count chAmp = 0 :=
    fun s => QueryEscape_count_zero s _ (by decide)
  obtain ⟨t1, t2, t3, t4, t5, t6, t7, t8, t9, t10, t11, t12, t13⟩ := template_counts
  refine ⟨?_, ?_, ?_⟩
  · intro t ht b hb
    have hal : escapedAlphabet b = true := by
      simp only [List.mem_cons, List.mem_singleton, List.not_mem_nil, or_false] at ht
      rcases ht with ht | ht | ht <;> subst ht <;> exact QueryEscape_alphabet _ b hb
    refine ⟨hal, ?_, ?_, ?_, ?_, ?_⟩ <;>
    · intro hb2
      rw [hb2] at hal
      exact absurd hal (by decide)
  · intro q hq2
    rcases Upload_shape env h sp m with ⟨h0, -⟩ | ⟨S2, r, hS2, -, -, h1, -⟩
    · rw [h0] at hq2; cases hq2
    · rw [hS] at hS2
      cases hS2
      rw [h1, List.mem_singleton] at hq2
      subst hq2
      refine ⟨rfl, ?_, ?_, ?_, ?_, ?_⟩
      · simp only [List.count_append, Nat.add_zero, Nat.zero_add, hS0, e1, t1, t2, t3]
      · simp only [List.count_append, Nat.add_zero, Nat.zero_add, e2, t4, t5, t6]
      · simp only [List.count_append, Nat.add_zero, Nat.zero_add, e3, (t7 chQuestion (by simp)).1,
          (t7 chQuestion (by simp)).2.1, (t7 chQuestion (by simp)).2.2]
      · simp only [List.count_append, Nat.add_zero, Nat.zero_add, e4, (t7 chHash (by simp)).1,
          (t7 chHash (by simp)).2.1, (t7 chHash (by simp)).2.2]
      · simp only [List.count_append, Nat.add_zero, Nat.zero_add, e5, (t7 chAmp (by simp)).1,
          (t7 chAmp (by simp)).2.1, (t7 chAmp (by simp)).2.2]
  · intro q hq2
    rcases Download_shape env h sp m with ⟨h0, -⟩ | ⟨S2, hS2, h1, -⟩
    · rw [h0] at hq2; cases hq2
    · rw [hS] at hS2
      cases hS2
      rw [h1, List.mem_singleton] at hq2
      subst hq2
      refine ⟨rfl, ?_, ?_, ?_, ?_, ?_⟩
      · simp only [List.count_append, Nat.add_zero, Nat.zero_add, hS0, e1, t8, t9]
      · simp only [List.count_append, Nat.add_zero, Nat.zero_add, e2, t10, t13 chSlash (by simp)]
      · simp only [List.count_append, Nat.add_zero, Nat.zero_add, e3, t11, t13 chQuestion (by simp)]
      · simp only [List.count_append, Nat.add_zero, Nat.zero_add, e4, t12 chHash (by simp), t13 chHash (by simp)]
      · simp only [List.count_append, Nat.add_zero, Nat.zero_add, e5, t12 chAmp (by simp), t13 chAmp (by simp)]

set_option maxRecDepth 100000 in
/-- C10 at the sample session and file: the site URL has no single quote, `Upload`
and `Download` build their requests, and the URLs have four and two single
quotes. -/
theorem escaped_text_stays_inside_quotes_witness :
    GetSiteURL sampleHeap sampleSession = some (lit "https://a.example/sites/x") ∧
    chQuote ∉ lit "https://a.example/sites/x" ∧
    ("POST", sampleUploadRequest.URL, some (lit "hello")) ∈
      (SharepointService.Upload sampleEnv sampleHeap sampleSession sampleModel).requests ∧
    sampleUploadRequest.URL.count chQuote = 4 ∧
    ("GET", sampleDownloadRequest.URL, none) ∈
      (SharepointService.Download sampleEnv sampleHeap sampleSession sampleModel).requests ∧
    sampleDownloadRequest.URL.count chQuote = 2 :=
  ⟨by decide, by decide, by decide,
   ((escaped_text_stays_inside_quotes sampleEnv sampleHeap sampleSession sampleModel
      (lit "https://a.example/sites/x") (by decide) (by decide)).2.1
      ("POST", sampleUploadRequest.URL, some (lit "hello")) (by decide)).2.1,
   by decide,
   ((escaped_text_stays_inside_quotes sampleEnv sampleHeap sampleSession sampleModel
      (lit "https://a.example/sites/x") (by decide) (by decide)).2.2
      ("GET", sampleDownloadRequest.URL, none) (by decide)).2.1⟩

/-- C5: for every session with site URL `S` and every `FileModel` `m` whose `Content`
reads fully to bytes `B`, `Upload` calls `http.NewRequest` exactly once, with
method `POST`, the URL `S + "/_api/web/getFolderByServerRelativeUrl('" +
escape(m.ParentID) + "')/files/add(overwrite=true,url='" + escape(m.Name) +
"')"` and body `B`; and when that request is constructed, executes, and its
response body reads to bytes `D`, it is the only request executed and `Upload`
returns `D` as a string together with a nil error. -/
theorem Upload_builds_one_POST (env : Env) (h : Heap) (sp : SharepointService) (m : FileModel)
    (S : GoString) (client : Ptr) (r : Reader) (B : List Byte)
    (hc : sp.Client = some client) (hS : GetSiteURL h sp = some S)
    (hC : m.Content = some r) (hB : ReadAll r = (B, none)) :
    (SharepointService.Upload env h sp m).requests = [("POST", (S ++ lit "/_api/web/getFolderByServerRelativeUrl('"
          ++ QueryEscape m.ParentID ++ lit "')/files/add(overwrite=true,url='"
          ++ QueryEscape m.Name ++ lit "')"), some B)] ∧
    ∀ (resp : Response) (D : List Byte),
      env.newRequestErr "POST" (S ++ lit "/_api/web/getFolderByServerRelativeUrl('"
          ++ QueryEscape m.ParentID ++ lit "')/files/add(overwrite=true,url='"
          ++ QueryEscape m.Name ++ lit "')") = none →
      env.execute client ⟨"POST", (S ++ lit "/_api/web/getFolderByServerRelativeUrl('"
          ++ QueryEscape m.ParentID ++ lit "')/files/add(overwrite=true,url='"
          ++ QueryEscape m.Name ++ lit "')"), some B,
        [("Accept", ["application/json;odata=verbose"])], []⟩ = .ok resp →
      ReadAll resp.Body = (D, none) →
      (SharepointService.Upload env h sp m).executed = [⟨"POST", (S ++ lit "/_api/web/getFolderByServerRelativeUrl('"
          ++ QueryEscape m.ParentID ++ lit "')/files/add(overwrite=true,url='"
          ++ QueryEscape m.Name ++ lit "')"), some B,
        [("Accept", ["application/json;odata=verbose"])], []⟩] ∧
      (SharepointService.Upload env h sp m).outcome = .returned (.str D, none) := by
  have hr : r.err = none := congrArg Prod.snd hB
  have hd : r.data = B := congrArg Prod.fst hB
  subst hd
  obtain ⟨url, hu⟩ : ∃ url, url = (S ++ lit "/_api/web/getFolderByServerRelativeUrl('"
          ++ QueryEscape m.ParentID ++ lit "')/files/add(overwrite=true,url='"
          ++ QueryEscape m.Name ++ lit "')") := ⟨_, rfl⟩
  rw [← hu]
  constructor
  · cases hn : env.newRequestErr "POST" url with
    | some e =>
      rw [Upload_newRequest_error env h sp m client S url r e hc hS hC hr hu hn]
      rfl
    | none =>
      cases he : env.execute client ⟨"POST", url, some r.data,
          [("Accept", ["application/json;odata=verbose"])], []⟩ with
      | error e =>
        rw [Upload_execute_error env h sp m client S url r e hc hS hC hr hu hn he]
        rfl
      | ok resp =>
        cases hb : resp.Body.err with
        | some e =>
          rw [Upload_body_error env h sp m client S url r resp e hc hS hC hr hu hn he hb]
          rfl
        | none =>
          rw [Upload_ok env h sp m client S url r resp hc hS hC hr hu hn he hb]
          rfl
  · intro resp D hn he hD
    have hb : resp.Body.err = none := congrArg Prod.snd hD
    have hd : resp.Body.data = D := congrArg Prod.fst hD
    subst hd
    rw [Upload_ok env h sp m client S url r resp hc hS hC hr hu hn he hb]
    exact ⟨rfl, rfl⟩

set_option maxRecDepth 100000 in
/-- C5 at the sample session and file, where the response is a 404 with body `nope`:
one `POST` is built and executed and `Upload` returns the string `nope` with a
nil error. -/
theorem Upload_builds_one_POST_witness :
    sampleSession.Client = some 0 ∧
    GetSiteURL sampleHeap sampleSession = some (lit "https://a.example/sites/x") ∧
    sampleModel.Content = some ⟨lit "hello", none⟩ ∧
    ReadAll ⟨lit "hello", none⟩ = (lit "hello", none) ∧
    (SharepointService.Upload sampleEnv sampleHeap sampleSession sampleModel).requests
      = [("POST", sampleUploadRequest.URL, some (lit "hello"))] ∧
    (SharepointService.Upload sampleEnv sampleHeap sampleSession sampleModel).executed
      = [sampleUploadRequest] ∧
    (SharepointService.Upload sampleEnv sampleHeap sampleSession sampleModel).outcome
      = .returned (.str (lit "nope"), none) :=
  ⟨rfl, by decide, rfl, rfl,
   (Upload_builds_one_POST sampleEnv sampleHeap sampleSession sampleModel
      (lit "https://a.example/sites/x") 0 ⟨lit "hello", none⟩ (lit "hello")
      rfl (by decide) rfl rfl).1,
   ((Upload_builds_one_POST sampleEnv sampleHeap sampleSession sampleModel
      (lit "https://a.example/sites/x") 0 ⟨lit "hello", none⟩ (lit "hello")
      rfl (by decide) rfl rfl).2 ⟨404, ⟨lit "nope", none⟩⟩ (lit "nope") rfl rfl rfl).1,
   ((Upload_builds_one_POST sampleEnv sampleHeap sampleSession sampleModel
      (lit "https://a.example/sites/x") 0 ⟨lit "hello", none⟩ (lit "hello")
      rfl (by decide) rfl rfl).2 ⟨404, ⟨lit "nope", none⟩⟩ (lit "nope") rfl rfl rfl).2⟩

/-- C6: for every session with site URL `S` and every `FileModel` `m`, `Download`
calls `http.NewRequest` exactly once, with method `GET`, no body and the URL
`S + "/_api/Web/GetFileByServerRelativeUrl(@FileServerRelativeUrl)/$value?@FileServerRelativeUrl='"
+ escape(m.SourcesID) + "'"`; if the request is constructed and executes and the
response body reads to bytes `D`, it returns `(D, nil)`, whatever the response
status; if request construction, execution or the body read fails with error
`e`, it returns `(nil, e)`. -/
theorem Download_builds_one_GET (env : Env) (h : Heap) (sp : SharepointService)
    (m : FileModel) (S : GoString) (client : Ptr)
    (hc : sp.Client = some client) (hS : GetSiteURL h sp = some S) :
    (SharepointService.Download env h sp m).requests = [("GET", (S
          ++ lit "/_api/Web/GetFileByServerRelativeUrl(@FileServerRelativeUrl)/$value?@FileServerRelativeUrl='"
          ++ QueryEscape m.SourcesID ++ lit "'"), none)] ∧
    (∀ (resp : Response) (D : List Byte),
      env.newRequestErr "GET" (S
          ++ lit "/_api/Web/GetFileByServerRelativeUrl(@FileServerRelativeUrl)/$value?@FileServerRelativeUrl='"
          ++ QueryEscape m.SourcesID ++ lit "'") = none →
      env.execute client ⟨"GET", (S
          ++ lit "/_api/Web/GetFileByServerRelativeUrl(@FileServerRelativeUrl)/$value?@FileServerRelativeUrl='"
          ++ QueryEscape m.SourcesID ++ lit "'"), none, [], ["null"]⟩ = .ok resp →
      ReadAll resp.Body = (D, none) →
      (SharepointService.Download env h sp m).outcome = .returned (.bytes D, none)) ∧
    (∀ e : GoError, env.newRequestErr "GET" (S
          ++ lit "/_api/Web/GetFileByServerRelativeUrl(@FileServerRelativeUrl)/$value?@FileServerRelativeUrl='"
          ++ QueryEscape m.SourcesID ++ lit "'") = some e →
      (SharepointService.Download env h sp m).outcome = .returned (.nil, some e)) ∧
    (∀ e : GoError, env.newRequestErr "GET" (S
          ++ lit "/_api/Web/GetFileByServerRelativeUrl(@FileServerRelativeUrl)/$value?@FileServerRelativeUrl='"
          ++ QueryEscape m.SourcesID ++ lit "'") = none →
      env.execute client ⟨"GET", (S
          ++ lit "/_api/Web/GetFileByServerRelativeUrl(@FileServerRelativeUrl)/$value?@FileServerRelativeUrl='"
          ++ QueryEscape m.SourcesID ++ lit "'"), none, [], ["null"]⟩ = .error e →
      (SharepointService.Download env h sp m).outcome = .returned (.nil, some e)) ∧
    (∀ (resp : Response) (D : List Byte) (e : GoError),
      env.newRequestErr "GET" (S
          ++ lit "/_api/Web/GetFileByServerRelativeUrl(@FileServerRelativeUrl)/$value?@FileServerRelativeUrl='"
          ++ QueryEscape m.SourcesID ++ lit "'") = none →
      env.execute client ⟨"GET", (S
          ++ lit "/_api/Web/GetFileByServerRelativeUrl(@FileServerRelativeUrl)/$value?@FileServerRelativeUrl='"
          ++ QueryEscape m.SourcesID ++ lit "'"), none, [], ["null"]⟩ = .ok resp →
      ReadAll resp.Body = (D, some e) →
      (SharepointService.Download env h sp m).outcome = .returned (.nil, some e)) := by
  obtain ⟨url, hu⟩ : ∃ url, url = (S
          ++ lit "/_api/Web/GetFileByServerRelativeUrl(@FileServerRelativeUrl)/$value?@FileServerRelativeUrl='"
          ++ QueryEscape m.SourcesID ++ lit "'") := ⟨_, rfl⟩
  rw [← hu]
  refine ⟨?_, ?_, ?_, ?_, ?_⟩
  · cases hn : env.newRequestErr "GET" url with
    | some e =>
      rw [Download_newRequest_error env h sp m client S url e hc hS hu hn]
      rfl
    | none =>
      cases he : env.execute client ⟨"GET", url, none, [], ["null"]⟩ with
      | error e =>
        rw [Download_execute_error env h sp m client S url e hc hS hu hn he]
        rfl
      | ok resp =>
        cases hb : resp.Body.err with
        | some e =>
          rw [Download_body_error env h sp m client S url resp e hc hS hu hn he hb]
          rfl
        | none =>
          rw [Download_ok env h sp m client S url resp hc hS hu hn he hb]
          rfl
  · intro resp D hn he hD
    have hb : resp.Body.err = none := congrArg Prod.snd hD
    have hd : resp.Body.data = D := congrArg Prod.fst hD
    subst hd
    rw [Download_ok env h sp m client S url resp hc hS hu hn he hb]
  · intro e hn
    rw [Download_newRequest_error env h sp m client S url e hc hS hu hn]
  · intro e hn he
    rw [Download_execute_error env h sp m client S url e hc hS hu hn he]
  · intro resp D e hn he hD
    have hb : resp.Body.err = some e := congrArg Prod.snd hD
    rw [Download_body_error env h sp m client S url resp e hc hS hu hn he hb]

set_option maxRecDepth 100000 in
/-- C6 at the sample session and file: one `GET` is built; with a 404 response of
body `nope` the result is `(nope, nil)`; when construction, execution or the
body read fails, the result is `(nil, e)`. -/
theorem Download_builds_one_GET_witness :
    sampleSession.Client = some 0 ∧
    GetSiteURL sampleHeap sampleSession = some (lit "https://a.example/sites/x") ∧
    (SharepointService.Download sampleEnv sampleHeap sampleSession sampleModel).requests
      = [("GET", sampleDownloadRequest.URL, none)] ∧
    (SharepointService.Download sampleEnv sampleHeap sampleSession sampleModel).outcome
      = .returned (.bytes (lit "nope"), none) ∧
    (SharepointService.Download envNoRequest sampleHeap sampleSession sampleModel).outcome
      = .returned (.nil, some ⟨"parse"⟩) ∧
    (SharepointService.Download envNoExecute sampleHeap sampleSession sampleModel).outcome
      = .returned (.nil, some ⟨"refused"⟩) ∧
    (SharepointService.Download envBrokenBody sampleHeap sampleSession sampleModel).outcome
      = .returned (.nil, some ⟨"reset"⟩) :=
  ⟨rfl, by decide,
   (Download_builds_one_GET sampleEnv sampleHeap sampleSession sampleModel
      (lit "https://a.example/sites/x") 0 rfl (by decide)).1,
   (Download_builds_one_GET sampleEnv sampleHeap sampleSession sampleModel
      (lit "https://a.example/sites/x") 0 rfl (by decide)).2.1
      ⟨404, ⟨lit "nope", none⟩⟩ (lit "nope") rfl rfl rfl,
   (Download_builds_one_GET envNoRequest sampleHeap sampleSession sampleModel
      (lit "https://a.example/sites/x") 0 rfl (by decide)).2.2.1 ⟨"parse"⟩ rfl,
   (Download_builds_one_GET envNoExecute sampleHeap sampleSession sampleModel
      (lit "https://a.example/sites/x") 0 rfl (by decide)).2.2.2.1 ⟨"refused"⟩ rfl rfl,
   (Download_builds_one_GET envBrokenBody sampleHeap sampleSession sampleModel
      (lit "https://a.example/sites/x") 0 rfl (by decide)).2.2.2.2
      ⟨200, ⟨lit "par", some ⟨"reset"⟩⟩⟩ (lit "par") ⟨"reset"⟩ rfl rfl rfl⟩

set_option maxRecDepth 100000 in
/-- C4, refuted as stated: for the sample session and file, when executing
`Upload`'s request fails, and when reading `Upload`'s response body fails,
`Upload` does not return an error: the process ends in `log.Fatalf`. -/
theorem Upload_execute_failure_is_fatal :
    (SharepointService.Upload envNoExecute sampleHeap sampleSession sampleModel).outcome
      = .fatal "Unable to execute refused" ∧
    (SharepointService.Upload envBrokenBody sampleHeap sampleSession sampleModel).outcome
      = .fatal "Unable to read body reset" ∧
    (¬ ∃ v, (SharepointService.Upload envNoExecute sampleHeap sampleSession sampleModel).outcome
      = .returned v) ∧
    (¬ ∃ v, (SharepointService.Upload envBrokenBody sampleHeap sampleSession sampleModel).outcome
      = .returned v) := by
  have h1 : (SharepointService.Upload envNoExecute sampleHeap sampleSession sampleModel).outcome
      = .fatal "Unable to execute refused" := by decide
  have h2 : (SharepointService.Upload envBrokenBody sampleHeap sampleSession sampleModel).outcome
      = .fatal "Unable to read body reset" := by decide
  refine ⟨h1, h2, ?_, ?_⟩
  · rintro ⟨v, hv⟩
    rw [h1] at hv
    cases hv
  · rintro ⟨v, hv⟩
    rw [h2] at hv
    cases hv

/-- C4, amended: for every session with a site URL and every `FileModel`, in `List`
and `Download` a failure of request construction, of request execution or of
reading the response body is returned to the caller as a non-nil error (with a
nil result), and in `Delete` the error of the library call is returned; in
`Upload` each of the four failures (reading the content stream, constructing the
request, executing the request, reading the response body) ends the process in
`log.Fatalf` instead of returning. -/
theorem failures_returned_except_in_Upload (env : Env) (h : Heap) (sp : SharepointService)
    (m : FileModel) (S : GoString) (client : Ptr)
    (hc : sp.Client = some client) (hS : GetSiteURL h sp = some S) :
    -- List
    (∀ e : GoError, env.newRequestErr "POST" (S ++ lit "/_api/web/lists/getByTitle('Custom')/items") = some e →
      (SharepointService.List env h sp m).outcome = .returned (.nil, some e)) ∧
    (∀ e : GoError, env.newRequestErr "POST" (S ++ lit "/_api/web/lists/getByTitle('Custom')/items") = none →
      env.execute client ⟨"POST", (S ++ lit "/_api/web/lists/getByTitle('Custom')/items"),
        some (lit "\x7b\"__metadata\":\x7b\"type\":\"SP.Data.CustomListItem\"\x7d,\"Title\":\"Test\"\x7d"),
        [("Content-Type", ["application/json;odata=verbose"]),
         ("Accept", ["application/json;odata=verbose"])], []⟩ = .error e →
      (SharepointService.List env h sp m).outcome = .returned (.nil, some e)) ∧
    (∀ (resp : Response) (e : GoError), env.newRequestErr "POST" (S ++ lit "/_api/web/lists/getByTitle('Custom')/items") = none →
      env.execute client ⟨"POST", (S ++ lit "/_api/web/lists/getByTitle('Custom')/items"),
        some (lit "\x7b\"__metadata\":\x7b\"type\":\"SP.Data.CustomListItem\"\x7d,\"Title\":\"Test\"\x7d"),
        [("Content-Type", ["application/json;odata=verbose"]),
         ("Accept", ["application/json;odata=verbose"])], []⟩ = .ok resp →
      (ReadAll resp.Body).2 = some e →
      (SharepointService.List env h sp m).outcome = .returned (.nil, some e)) ∧
    -- Download
    (∀ e : GoError, env.newRequestErr "GET" (S
          ++ lit "/_api/Web/GetFileByServerRelativeUrl(@FileServerRelativeUrl)/$value?@FileServerRelativeUrl='"
          ++ QueryEscape m.SourcesID ++ lit "'") = some e →
      (SharepointService.Download env h sp m).outcome = .returned (.nil, some e)) ∧
    (∀ e : GoError, env.newRequestErr "GET" (S
          ++ lit "/_api/Web/GetFileByServerRelativeUrl(@FileServerRelativeUrl)/$value?@FileServerRelativeUrl='"
          ++ QueryEscape m.SourcesID ++ lit "'") = none →
      env.execute client ⟨"GET", (S
          ++ lit "/_api/Web/GetFileByServerRelativeUrl(@FileServerRelativeUrl)/$value?@FileServerRelativeUrl='"
          ++ QueryEscape m.SourcesID ++ lit "'"), none, [], ["null"]⟩ = .error e →
      (SharepointService.Download env h sp m).outcome = .returned (.nil, some e)) ∧
    (∀ (resp : Response) (e : GoError), env.newRequestErr "GET" (S
          ++ lit "/_api/Web/GetFileByServerRelativeUrl(@FileServerRelativeUrl)/$value?@FileServerRelativeUrl='"
          ++ QueryEscape m.SourcesID ++ lit "'") = none →
      env.execute client ⟨"GET", (S
          ++ lit "/_api/Web/GetFileByServerRelativeUrl(@FileServerRelativeUrl)/$value?@FileServerRelativeUrl='"
          ++ QueryEscape m.SourcesID ++ lit "'"), none, [], ["null"]⟩ = .ok resp →
      (ReadAll resp.Body).2 = some e →
      (SharepointService.Download env h sp m).outcome = .returned (.nil, some e)) ∧
    -- Delete
    (∀ (p : Ptr) (e : GoError), sp.SharepointService = some p →
      env.recycle p config m.SourcesID = some e →
      (SharepointService.Delete env h sp m).outcome = .returned (some e)) ∧
    -- Upload
    (∀ (r : Reader) (e : GoError), m.Content = some r → (ReadAll r).2 = some e →
      (SharepointService.Upload env h sp m).outcome = .fatal ("Unable to read " ++ e.msg)) ∧
    (∀ (r : Reader) (e : GoError), m.Content = some r → (ReadAll r).2 = none →
      env.newRequestErr "POST" (S ++ lit "/_api/web/getFolderByServerRelativeUrl('"
          ++ QueryEscape m.ParentID ++ lit "')/files/add(overwrite=true,url='"
          ++ QueryEscape m.Name ++ lit "')") = some e →
      (SharepointService.Upload env h sp m).outcome
        = .fatal ("Unable to POST data " ++ e.msg)) ∧
    (∀ (r : Reader) (e : GoError), m.Content = some r → (ReadAll r).2 = none →
      env.newRequestErr "POST" (S ++ lit "/_api/web/getFolderByServerRelativeUrl('"
          ++ QueryEscape m.ParentID ++ lit "')/files/add(overwrite=true,url='"
          ++ QueryEscape m.Name ++ lit "')") = none →
      env.execute client ⟨"POST", (S ++ lit "/_api/web/getFolderByServerRelativeUrl('"
          ++ QueryEscape m.ParentID ++ lit "')/files/add(overwrite=true,url='"
          ++ QueryEscape m.Name ++ lit "')"), some r.data,
        [("Accept", ["application/json;odata=verbose"])], []⟩ = .error e →
      (SharepointService.Upload env h sp m).outcome
        = .fatal ("Unable to execute " ++ e.msg)) ∧
    (∀ (r : Reader) (resp : Response) (e : GoError), m.Content = some r →
      (ReadAll r).2 = none →
      env.newRequestErr "POST" (S ++ lit "/_api/web/getFolderByServerRelativeUrl('"
          ++ QueryEscape m.ParentID ++ lit "')/files/add(overwrite=true,url='"
          ++ QueryEscape m.Name ++ lit "')") = none →
      env.execute client ⟨"POST", (S ++ lit "/_api/web/getFolderByServerRelativeUrl('"
          ++ QueryEscape m.ParentID ++ lit "')/files/add(overwrite=true,url='"
          ++ QueryEscape m.Name ++ lit "')"), some r.data,
        [("Accept", ["application/json;odata=verbose"])], []⟩ = .ok resp →
      (ReadAll resp.Body).2 = some e →
      (SharepointService.Upload env h sp m).outcome
        = .fatal ("Unable to read body " ++ e.msg)) := by
  refine ⟨?_, ?_, ?_, ?_, ?_, ?_, ?_, ?_, ?_, ?_, ?_⟩
  · intro e hn
    rw [List_newRequest_error env h sp m client S _ _ e hc hS rfl rfl hn]
  · intro e hn he
    rw [List_execute_error env h sp m client S _ _ e hc hS rfl rfl hn he]
  · intro resp e hn he hb
    rw [List_body_error env h sp m client S _ _ resp e hc hS rfl rfl hn he hb]
  · intro e hn
    rw [Download_newRequest_error env h sp m client S _ e hc hS rfl hn]
  · intro e hn he
    rw [Download_execute_error env h sp m client S _ e hc hS rfl hn he]
  · intro resp e hn he hb
    rw [Download_body_error env h sp m client S _ resp e hc hS rfl hn he hb]
  · intro p e hp he
    simp [SharepointService.Delete, hp, he]
  · intro r e hC hr
    rw [Upload_content_error env h sp m client S r e hc hS hC hr]
  · intro r e hC hr hn
    rw [Upload_newRequest_error env h sp m client S _ r e hc hS hC hr rfl hn]
  · intro r e hC hr hn he
    rw [Upload_execute_error env h sp m client S _ r e hc hS hC hr rfl hn he]
  · intro r resp e hC hr hn he hb
    rw [Upload_body_error env h sp m client S _ r resp e hc hS hC hr rfl hn he hb]

set_option maxRecDepth 100000 in
/-- C4, amended, at the sample session: `List`, `Download` and `Delete` return the
error of a failed execution or library call, and `Upload` ends the process when
its content stream, its request construction, its execution or its body read
fails. -/
theorem failures_returned_except_in_Upload_witness :
    sampleSession.Client = some 0 ∧
    GetSiteURL sampleHeap sampleSession = some (lit "https://a.example/sites/x") ∧
    (SharepointService.List envNoExecute sampleHeap sampleSession sampleModel).outcome
      = .returned (.nil, some ⟨"refused"⟩) ∧
    (SharepointService.Download envNoExecute sampleHeap sampleSession sampleModel).outcome
      = .returned (.nil, some ⟨"refused"⟩) ∧
    (SharepointService.Delete envNoExecute sampleHeap sampleSession sampleModel).outcome
      = .returned (some ⟨"denied"⟩) ∧
    (SharepointService.Upload sampleEnv sampleHeap sampleSession brokenModel).outcome
      = .fatal ("Unable to read " ++ "eof") ∧
    (SharepointService.Upload envNoRequest sampleHeap sampleSession sampleModel).outcome
      = .fatal ("Unable to POST data " ++ "parse") ∧
    (SharepointService.Upload envNoExecute sampleHeap sampleSession sampleModel).outcome
      = .fatal ("Unable to execute " ++ "refused") ∧
    (SharepointService.Upload envBrokenBody sampleHeap sampleSession sampleModel).outcome
      = .fatal ("Unable to read body " ++ "reset") :=
  ⟨rfl, by decide,
   (failures_returned_except_in_Upload envNoExecute sampleHeap sampleSession sampleModel
      (lit "https://a.example/sites/x") 0 rfl (by decide)).2.1 ⟨"refused"⟩ rfl rfl,
   (failures_returned_except_in_Upload envNoExecute sampleHeap sampleSession sampleModel
      (lit "https://a.example/sites/x") 0 rfl (by decide)).2.2.2.2.1 ⟨"refused"⟩ rfl rfl,
   (failures_returned_except_in_Upload envNoExecute sampleHeap sampleSession sampleModel
      (lit "https://a.example/sites/x") 0 rfl (by decide)).2.2.2.2.2.2.1 0 ⟨"denied"⟩ rfl rfl,
   (failures_returned_except_in_Upload sampleEnv sampleHeap sampleSession brokenModel
      (lit "https://a.example/sites/x") 0 rfl (by decide)).2.2.2.2.2.2.2.1
      ⟨lit "he", some ⟨"eof"⟩⟩ ⟨"eof"⟩ rfl rfl,
   (failures_returned_except_in_Upload envNoRequest sampleHeap sampleSession sampleModel
      (lit "https://a.example/sites/x") 0 rfl (by decide)).2.2.2.2.2.2.2.2.1
      ⟨lit "hello", none⟩ ⟨"parse"⟩ rfl rfl rfl,
   (failures_returned_except_in_Upload envNoExecute sampleHeap sampleSession sampleModel
      (lit "https://a.example/sites/x") 0 rfl (by decide)).2.2.2.2.2.2.2.2.2.1
      ⟨lit "hello", none⟩ ⟨"refused"⟩ rfl rfl rfl rfl,
   (failures_returned_except_in_Upload envBrokenBody sampleHeap sampleSession sampleModel
      (lit "https://a.example/sites/x") 0 rfl (by decide)).2.2.2.2.2.2.2.2.2.2
      ⟨lit "hello", none⟩ ⟨200, ⟨lit "par", some ⟨"reset"⟩⟩⟩ ⟨"reset"⟩ rfl rfl rfl rfl rfl⟩

/-- C1: for every initial registry state and every finite sequence of `NewSharepoint`
calls, any two calls whose configurations have the same fingerprint return the
same session pointer; a later call with the fingerprint of an earlier one
allocates no session, a call for a fingerprint registered in the initial state
allocates none, and over the whole sequence at most one session is allocated
per fingerprint, exactly one when the fingerprint was not registered at the
start. Every call is a call of `NewSharepoint` from the state the sequence has
reached; the pointer it returns is the one registered for its fingerprint when
it returns and at the end of the sequence; a call that finds the fingerprint
unregistered allocates exactly one session, returns the pointer to it, and the
site URL read through that session is the configuration's; a call that finds
it registered returns the registered pointer and leaves the heap as it is; the
session a returned pointer designates, and the site URL read through it, are
the same at the end of the sequence; and when every pointer registered at the
start designates an allocated session, so does every returned pointer. -/
theorem NewSharepoint_singleton (Hash : Service → GoString) (st : State) (cs : List Service) :
    (calls Hash st cs).map (fun a => a.config) = cs ∧
    (∀ (i j : Nat) (a b : Call), (calls Hash st cs)[i]? = some a →
      (calls Hash st cs)[j]? = some b → Hash a.config = Hash b.config →
      a.result = b.result) ∧
    (∀ (i j : Nat) (a b : Call), i < j → (calls Hash st cs)[i]? = some a →
      (calls Hash st cs)[j]? = some b → Hash a.config = Hash b.config →
      b.constructed = 0) ∧
    (∀ a ∈ calls Hash st cs, st.sharepoinSession (Hash a.config) ≠ none →
      a.constructed = 0) ∧
    (∀ fp : GoString, (((calls Hash st cs).filter (fun a => decide (Hash a.config = fp))).map
      Call.constructed).sum ≤ 1) ∧
    (∀ a ∈ calls Hash st cs, (a.result, a.after) = NewSharepoint Hash a.config a.before) ∧
    (∀ a ∈ calls Hash st cs,
      a.after.sharepoinSession (Hash a.config) = some a.result ∧
      (stateAfter Hash st cs).sharepoinSession (Hash a.config) = some a.result) ∧
    (∀ a ∈ calls Hash st cs, a.before.sharepoinSession (Hash a.config) = none →
      a.result = a.before.heap.sessions.length ∧
      a.constructed = 1 ∧
      a.after.heap.sessions[a.result]? =
        some ⟨some a.before.heap.auths.length, some a.before.heap.clients.length,
          some a.before.heap.sps.length⟩ ∧
      GetSiteURL a.after.heap
        ⟨some a.before.heap.auths.length, some a.before.heap.clients.length,
          some a.before.heap.sps.length⟩ = some a.config.Database.Sharepoint.SiteURL) ∧
    (∀ a ∈ calls Hash st cs, ∀ p : Ptr, a.before.sharepoinSession (Hash a.config) = some p →
      a.result = p ∧ a.constructed = 0 ∧ a.after.heap = a.before.heap) ∧
    (∀ a ∈ calls Hash st cs, ∀ x : SharepointService,
      a.after.heap.sessions[a.result]? = some x →
      (stateAfter Hash st cs).heap.sessions[a.result]? = some x ∧
      ∀ S : GoString, GetSiteURL a.after.heap x = some S →
        GetSiteURL (stateAfter Hash st cs).heap x = some S) ∧
    ((∀ (k : GoString) (p : Ptr), st.sharepoinSession k = some p →
        p < st.heap.sessions.length) →
      ∀ a ∈ calls Hash st cs, a.result < a.after.heap.sessions.length) ∧
    (∀ fp : GoString, st.sharepoinSession fp = none → fp ∈ cs.map Hash →
      (((calls Hash st cs).filter (fun a => decide (Hash a.config = fp))).map
        Call.constructed).sum = 1) := by
  refine ⟨calls_config Hash cs st, ?_, ?_, ?_, calls_constructed_le_one Hash cs st,
    fun a ha => (calls_step Hash cs st a ha).1, ?_, ?_, ?_, ?_, calls_valid Hash cs st,
    calls_constructed_eq_one Hash cs st⟩
  · intro i j a b hi hj hab
    rcases Nat.lt_trichotomy i j with hlt | heq | hgt
    · exact (calls_later Hash cs st i j a b hlt hi hj hab).1
    · subst heq
      rw [hi] at hj
      cases hj
      rfl
    · exact (calls_later Hash cs st j i b a hgt hj hi hab.symm).1.symm
  · intro i j a b hlt hi hj hab
    exact (calls_later Hash cs st i j a b hlt hi hj hab).2
  · intro a ha hreg
    cases hk : st.sharepoinSession (Hash a.config) with
    | none => exact absurd hk hreg
    | some p => exact (calls_registered Hash cs st _ p hk a ha rfl).2
  · intro a ha
    obtain ⟨hstep, rest, hrest⟩ := calls_step Hash cs st a ha
    have h1 : a.result = (NewSharepoint Hash a.config a.before).1 := congrArg Prod.fst hstep
    have h2 : a.after = (NewSharepoint Hash a.config a.before).2 := congrArg Prod.snd hstep
    have hreg : a.after.sharepoinSession (Hash a.config) = some a.result := by
      rw [h2, h1]
      exact NewSharepoint_registers Hash a.config a.before
    refine ⟨hreg, ?_⟩
    rw [hrest]
    exact (stateAfter_keeps Hash rest a.after).1 _ _ hreg
  · intro a ha hnone
    obtain ⟨hstep, -⟩ := calls_step Hash cs st a ha
    rw [NewSharepoint_miss Hash a.config a.before hnone] at hstep
    have h1 : a.result = a.before.heap.sessions.length := congrArg Prod.fst hstep
    have h2 := congrArg Prod.snd hstep
    simp only at h2
    refine ⟨h1, ?_, ?_, ?_⟩
    · simp [Call.constructed, h2]
    · rw [h2, h1]
      simp
    · rw [h2]
      simp [GetSiteURL]
  · intro a ha p hp
    obtain ⟨hstep, -⟩ := calls_step Hash cs st a ha
    rw [NewSharepoint_hit Hash a.config a.before p hp] at hstep
    have h1 : a.result = p := congrArg Prod.fst hstep
    have h2 : a.after = a.before := congrArg Prod.snd hstep
    refine ⟨h1, ?_, ?_⟩
    · simp [Call.constructed, h2]
    · rw [h2]
  · intro a ha x hx
    obtain ⟨-, rest, hrest⟩ := calls_step Hash cs st a ha
    rw [hrest]
    have hk := stateAfter_keeps Hash rest a.after
    exact ⟨hk.2.1 _ x hx, fun S hS => GetSiteURL_keeps _ _ x S hk.2.2.1 hk.2.2.2 hS⟩

set_option maxRecDepth 100000 in
/-- C1 at three calls from the empty state (sample, other, sample configuration):
the first and the third call have the same fingerprint and return the same
session, pointer 0; the first call finds the fingerprint unregistered,
allocates the session at pointer 0 and registers it; the third allocates
nothing; at the end the fingerprint is registered with pointer 0, and exactly
one session was allocated for it. -/
theorem NewSharepoint_singleton_witness :
    (sampleCalls[0]? = some firstCall ∧ sampleCalls[2]? = some thirdCall ∧
      sampleHash firstCall.config = sampleHash thirdCall.config) ∧
    firstCall.result = thirdCall.result ∧
    thirdCall.constructed = 0 ∧
    ((sampleCalls.filter (fun a => decide (sampleHash a.config = sampleHash sampleConfig))).map
      Call.constructed).sum ≤ 1 ∧
    (firstCall ∈ sampleCalls ∧
      firstCall.after.sharepoinSession (sampleHash firstCall.config) = some firstCall.result ∧
      (stateAfter sampleHash emptyState [sampleConfig, otherConfig, sampleConfig]).sharepoinSession
        (sampleHash firstCall.config) = some firstCall.result) ∧
    (firstCall.before.sharepoinSession (sampleHash firstCall.config) = none ∧
      firstCall.result = firstCall.before.heap.sessions.length ∧
      firstCall.constructed = 1 ∧
      firstCall.after.heap.sessions[firstCall.result]? = some ⟨some 0, some 0, some 0⟩) ∧
    (thirdCall ∈ sampleCalls ∧
      thirdCall.before.sharepoinSession (sampleHash thirdCall.config) = some 0 ∧
      thirdCall.result = 0 ∧ thirdCall.constructed = 0) ∧
    ((∀ (k : GoString) (p : Ptr), emptyState.sharepoinSession k = some p →
        p < emptyState.heap.sessions.length) ∧
      thirdCall.result < thirdCall.after.heap.sessions.length) ∧
    (emptyState.sharepoinSession (sampleHash sampleConfig) = none ∧
      sampleHash sampleConfig ∈ [sampleConfig, otherConfig, sampleConfig].map sampleHash ∧
      ((sampleCalls.filter
        (fun a => decide (sampleHash a.config = sampleHash sampleConfig))).map
        Call.constructed).sum = 1) :=
  ⟨⟨rfl, rfl, rfl⟩,
   (NewSharepoint_singleton sampleHash emptyState [sampleConfig, otherConfig, sampleConfig]).2.1
      0 2 firstCall thirdCall rfl rfl rfl,
   (NewSharepoint_singleton sampleHash emptyState [sampleConfig, otherConfig, sampleConfig]).2.2.1
      0 2 firstCall thirdCall (by decide) rfl rfl rfl,
   (NewSharepoint_singleton sampleHash emptyState
      [sampleConfig, otherConfig, sampleConfig]).2.2.2.2.1 (sampleHash sampleConfig),
   ⟨List.getElem?_mem (show sampleCalls[0]? = some firstCall from rfl),
    (NewSharepoint_singleton sampleHash emptyState
      [sampleConfig, otherConfig, sampleConfig]).2.2.2.2.2.2.1 firstCall
      (List.getElem?_mem (show sampleCalls[0]? = some firstCall from rfl))⟩,
   ⟨rfl,
    ((NewSharepoint_singleton sampleHash emptyState
      [sampleConfig, otherConfig, sampleConfig]).2.2.2.2.2.2.2.1 firstCall
      (List.getElem?_mem (show sampleCalls[0]? = some firstCall from rfl)) rfl).1,
    ((NewSharepoint_singleton sampleHash emptyState
      [sampleConfig, otherConfig, sampleConfig]).2.2.2.2.2.2.2.1 firstCall
      (List.getElem?_mem (show sampleCalls[0]? = some firstCall from rfl)) rfl).2.1,
    ((NewSharepoint_singleton sampleHash emptyState
      [sampleConfig, otherConfig, sampleConfig]).2.2.2.2.2.2.2.1 firstCall
      (List.getElem?_mem (show sampleCalls[0]? = some firstCall from rfl)) rfl).2.2.1⟩,
   ⟨List.getElem?_mem (show sampleCalls[2]? = some thirdCall from rfl), by decide,
    ((NewSharepoint_singleton sampleHash emptyState
      [sampleConfig, otherConfig, sampleConfig]).2.2.2.2.2.2.2.2.1 thirdCall
      (List.getElem?_mem (show sampleCalls[2]? = some thirdCall from rfl)) 0 (by decide)).1,
    ((NewSharepoint_singleton sampleHash emptyState
      [sampleConfig, otherConfig, sampleConfig]).2.2.2.2.2.2.2.2.1 thirdCall
      (List.getElem?_mem (show sampleCalls[2]? = some thirdCall from rfl)) 0 (by decide)).2.1⟩,
   ⟨(fun _ _ h => by cases h),
    (NewSharepoint_singleton sampleHash emptyState
      [sampleConfig, otherConfig, sampleConfig]).2.2.2.2.2.2.2.2.2.2.1
      (fun _ _ h => by cases h) thirdCall
      (List.getElem?_mem (show sampleCalls[2]? = some thirdCall from rfl))⟩,
   ⟨rfl, by decide,
    (NewSharepoint_singleton sampleHash emptyState
      [sampleConfig, otherConfig, sampleConfig]).2.2.2.2.2.2.2.2.2.2.2
      (sampleHash sampleConfig) rfl (by decide)⟩⟩

/-- C2: for every registry state `R` and configuration `c` with fingerprint
`h = c.Hash()`: if `R` has a session under `h`, `NewSharepoint(c)` returns exactly
that session and leaves the state unchanged; otherwise it returns a pointer to
a new session (allocated after every existing one, which stay as they are),
whose `Auth` is a new `AuthCnfg` with the `SiteURL`, `Username` and `Password` of
`c`, whose `Client` is a new client bound to that same `Auth`, and whose
`SharepointService` is a new handle on that client; the site URL read through
the session is that of `c`; and the registry afterwards maps `h` to the
returned session and every other key as before. -/
theorem NewSharepoint_get_or_create (Hash : Service → GoString) (c : Service) (R : State) :
    (∀ p : Ptr, R.sharepoinSession (Hash c) = some p → NewSharepoint Hash c R = (p, R)) ∧
    (R.sharepoinSession (Hash c) = none →
      (NewSharepoint Hash c R).1 = R.heap.sessions.length ∧
      (NewSharepoint Hash c R).2.heap.sessions = R.heap.sessions ++
        [⟨some R.heap.auths.length, some R.heap.clients.length, some R.heap.sps.length⟩] ∧
      (NewSharepoint Hash c R).2.heap.auths = R.heap.auths ++
        [⟨c.Database.Sharepoint.SiteURL, c.Database.Sharepoint.Username,
          c.Database.Sharepoint.Password⟩] ∧
      (NewSharepoint Hash c R).2.heap.clients = R.heap.clients ++
        [⟨some R.heap.auths.length⟩] ∧
      (NewSharepoint Hash c R).2.heap.sps = R.heap.sps ++ [⟨some R.heap.clients.length⟩] ∧
      (NewSharepoint Hash c R).2.heap.sessions[(NewSharepoint Hash c R).1]? =
        some ⟨some R.heap.auths.length, some R.heap.clients.length,
          some R.heap.sps.length⟩ ∧
      GetSiteURL (NewSharepoint Hash c R).2.heap
        ⟨some R.heap.auths.length, some R.heap.clients.length, some R.heap.sps.length⟩
        = some c.Database.Sharepoint.SiteURL ∧
      (NewSharepoint Hash c R).2.sharepoinSession (Hash c)
        = some (NewSharepoint Hash c R).1 ∧
      (∀ k : GoString, k ≠ Hash c →
        (NewSharepoint Hash c R).2.sharepoinSession k = R.sharepoinSession k)) := by
  refine ⟨fun p hp => NewSharepoint_hit Hash c R p hp, ?_⟩
  intro hnone
  rw [NewSharepoint_miss Hash c R hnone]
  refine ⟨rfl, rfl, rfl, rfl, rfl, ?_, ?_, ?_, ?_⟩
  · simp
  · simp [GetSiteURL]
  · simp
  · intro k hk
    simp [hk]

set_option maxRecDepth 100000 in
/-- C2 at the sample configuration: from the empty state a session is created at
pointer 0 for the site URL of the configuration and registered; from the state
after that, the same call returns pointer 0 and leaves the state unchanged. -/
theorem NewSharepoint_get_or_create_witness :
    (sampleState.sharepoinSession (sampleHash sampleConfig) = some 0 ∧
      NewSharepoint sampleHash sampleConfig sampleState = (0, sampleState)) ∧
    (emptyState.sharepoinSession (sampleHash sampleConfig) = none ∧
      (NewSharepoint sampleHash sampleConfig emptyState).1 = 0 ∧
      (NewSharepoint sampleHash sampleConfig emptyState).2.heap.sessions
        = [⟨some 0, some 0, some 0⟩] ∧
      GetSiteURL (NewSharepoint sampleHash sampleConfig emptyState).2.heap
        ⟨some 0, some 0, some 0⟩ = some (lit "https://a.example/sites/x") ∧
      (NewSharepoint sampleHash sampleConfig emptyState).2.sharepoinSession
        (sampleHash sampleConfig) = some 0 ∧
      (otherConfig.Database.Sharepoint.SiteURL ≠ sampleHash sampleConfig ∧
        (NewSharepoint sampleHash sampleConfig emptyState).2.sharepoinSession
          otherConfig.Database.Sharepoint.SiteURL = none)) :=
  ⟨⟨by decide,
    (NewSharepoint_get_or_create sampleHash sampleConfig sampleState).1 0 (by decide)⟩,
   ⟨rfl,
    ((NewSharepoint_get_or_create sampleHash sampleConfig emptyState).2 rfl).1,
    ((NewSharepoint_get_or_create sampleHash sampleConfig emptyState).2 rfl).2.1,
    ((NewSharepoint_get_or_create sampleHash sampleConfig emptyState).2 rfl).2.2.2.2.2.2.1,
    ((NewSharepoint_get_or_create sampleHash sampleConfig emptyState).2 rfl).2.2.2.2.2.2.2.1,
    ⟨by decide,
     ((NewSharepoint_get_or_create sampleHash sampleConfig emptyState).2 rfl).2.2.2.2.2.2.2.2
       otherConfig.Database.Sharepoint.SiteURL (by decide)⟩⟩⟩

end Filestore
